import Mathlib

/-!
Verification of the covnes NES emulator core.

Shallow embedding of the parts of the source relevant to the checked
properties:

* `src/covnes/src/cpu.rs` — the CPU's `ReadOp::execute` arithmetic (ADC and
  SBC), the `SHOp::execute` unofficial store operations, and the
  `AddLowHigh` / `FakeThenActual` / `ExecuteOnAddress` micro-states of the
  absolute-indexed addressing path.
* `src/covnes/src/nes/ppu.rs` — the PPU register file, `reg_read`,
  `reg_write`, palette RAM mirroring, pixel production and the full
  per-dot `tick`.
* `src/covnes/src/nes/dma.rs` — the OAM-DMA engine's `tick` state machine.
* `src/covnes/src/nes/io.rs` — the `SingleStandardController` latch/shift
  adapter.
* `src/covnes/src/nes/mappers/common.rs` — `get_vram_cell` nametable
  mirroring.

Machine integers (`u8`/`u16` in the source) are modelled as `Nat` with
explicit masking/`%` at the points the source performs wrapping or
truncating casts; Rust's bitwise complement `!x` on `u8` is modelled as
`x ^^^ 0xFF`.
-/

namespace Covnes

/-! ### CPU flags and arithmetic (cpu.rs) -/

/-- The 6502 flag register, one `Bool` per flag bit
(`bitflags! Flags` in cpu.rs; bits N,V,D,I,Z,C). -/
structure CpuFlags where
  n : Bool
  v : Bool
  d : Bool
  i : Bool
  z : Bool
  c : Bool
deriving Repr, DecidableEq

/-- The accumulator together with the flags — the part of the CPU state
that `ReadOp::ADC`/`ReadOp::SBC` read and write. -/
structure ArithState where
  a : Nat
  flags : CpuFlags
deriving Repr, DecidableEq

/-- `CPU::set_zn` from cpu.rs: `Z := val == 0`, `N := val >> 7 == 1`. -/
def setZn (f : CpuFlags) (val : Nat) : CpuFlags :=
  { f with z := val == 0, n := val >>> 7 == 1 }

/-- `ReadOp::ADC.execute` from cpu.rs:
`sum = a + operand + C` (as `u16`), `result = sum & 0xff`,
`C := sum > 0xff`, `V := (!(a ^ operand) & (a ^ result) & 0x80) == 0x80`,
`A := result`, then `set_zn result`. -/
def adcExecute (st : ArithState) (operand : Nat) : ArithState :=
  let a := st.a
  let sum := a + operand + (if st.flags.c then 1 else 0)
  let result := sum &&& 0xff
  let f := st.flags
  let f := { f with c := 0xff < sum }
  let f := { f with v := (((a ^^^ operand) ^^^ 0xff) &&& (a ^^^ result) &&& 0x80) == 0x80 }
  { a := result, flags := setZn f result }

/-- `ReadOp::SBC.execute` from cpu.rs: `ADC.execute(cpu, !operand)`. -/
def sbcExecute (st : ArithState) (operand : Nat) : ArithState :=
  adcExecute st (operand ^^^ 0xff)

/-- C1: for every accumulator `a`, operand `m` and incoming carry, ADC stores
the low 8 bits of `a + m + c` into the accumulator, sets carry iff
`a + m + c ≥ 256`, sets V to bit 7 of `(~(a^m)) & (a ^ result)`, sets Z iff
the 8-bit result is zero and N iff the result is ≥ 128; and SBC with
operand `m` is exactly ADC with operand `~m` (`m ^^^ 0xFF`). -/
theorem adc_sbc_spec (a m : Nat) (f : CpuFlags) (ha : a < 256) (hm : m < 256) :
    let c : Nat := if f.c then 1 else 0
    let result := (a + m + c) % 256
    let st' := adcExecute ⟨a, f⟩ m
    st'.a = result ∧
    st'.flags.c = decide (a + m + c ≥ 256) ∧
    st'.flags.v = (((a ^^^ m) ^^^ 0xff) &&& (a ^^^ result)).testBit 7 ∧
    st'.flags.z = decide (result = 0) ∧
    st'.flags.n = decide (result ≥ 128) ∧
    sbcExecute ⟨a, f⟩ m = adcExecute ⟨a, f⟩ (m ^^^ 0xff) := by
  intro c result st'
  have hmask : ∀ x : Nat, x &&& 255 = x % 256 := fun x =>
    Nat.and_pow_two_sub_one_eq_mod x 8
  have hres : (a + m + c) &&& 0xff = result := hmask _
  have hreslt : result < 256 := Nat.mod_lt _ (by norm_num)
  refine ⟨?_, ?_, ?_, ?_, ?_, rfl⟩
  · simp only [st', adcExecute, hres]
  · simp only [st', adcExecute, setZn]
    rcases Nat.lt_or_ge (a + m + c) 256 with h | h
    · simp [Nat.not_lt.mpr (by omega : a + m + c ≤ 0xff), Nat.not_le.mpr h]
    · simp [Nat.lt_of_lt_of_le (by norm_num : (0xff : Nat) < 256) h, h]
  · simp only [st', adcExecute, setZn, hres]
    have h128 : ∀ x : Nat, (x &&& 0x80 == 0x80) = x.testBit 7 := by
      intro x
      rw [show (0x80 : Nat) = 2 ^ 7 by norm_num, Nat.and_two_pow]
      cases h : x.testBit 7 <;> simp
    exact h128 _
  · simp only [st', adcExecute, setZn, hres]
    by_cases h : result = 0 <;> simp [h]
  · simp only [st', adcExecute, setZn, hres]
    rw [Nat.shiftRight_eq_div_pow]
    have h27 : (2 : Nat) ^ 7 = 128 := by norm_num
    rw [h27]
    rcases Nat.lt_or_ge result 128 with h | h
    · have h0 : result / 128 = 0 := by omega
      simp [h0, Nat.not_le.mpr h]
    · have h1 : result / 128 = 1 := by omega
      simp [h1, h]

/-- Witness for `adc_sbc_spec` at a concrete input. -/
theorem adc_sbc_spec_witness :
    (adcExecute ⟨200, ⟨false, false, false, false, false, true⟩⟩ 100).a = 45 ∧
    (adcExecute ⟨200, ⟨false, false, false, false, false, true⟩⟩ 100).flags.c = true := by
  have h := adc_sbc_spec 200 100 ⟨false, false, false, false, false, true⟩
    (by norm_num) (by norm_num)
  simp only at h
  exact ⟨h.1.trans (by norm_num), h.2.1.trans (by decide)⟩

/-! ### Bus operations

A CPU bus cycle performs at most one read or one write; traces of bus
operations let us state what the micro-state machines put on the bus. -/

/-- One bus access: a read of an address, or a write of a value to an
address. -/
inductive BusOp where
  | read (addr : Nat)
  | write (addr : Nat) (value : Nat)
deriving Repr, DecidableEq

/-! ### The unofficial SHY/SHX stores (cpu.rs)

Opcode $9C decodes to `S::AbsoluteX(Op::SH(SHY))` and $9E to
`S::AbsoluteY(Op::SH(SHX))`.  After the low byte is fetched and the index
register added (giving the 9-bit `low_word`), the remaining three cycles
are the `S::AddLowHigh`, `S::FakeThenActual` and `S::ExecuteOnAddress`
arms of `CPU::tick`, which we embed state by state. -/

/-- `SHOp` from cpu.rs. -/
inductive ShOp where
  | shy
  | shx
deriving Repr, DecidableEq

/-- The X and Y registers — the only CPU registers `SHOp::execute` reads. -/
structure ShRegs where
  x : Nat
  y : Nat
deriving Repr, DecidableEq

/-- `SHOp::execute` from cpu.rs: SHY yields `y & h`, SHX yields `x & h`. -/
def shExecute (cpu : ShRegs) (op : ShOp) (h : Nat) : Nat :=
  match op with
  | .shy => cpu.y &&& h
  | .shx => cpu.x &&& h

/-- The micro-states an SH store passes through once the indexed low word
is known (the `Op::SH` cases of the corresponding `CPU::tick` arms). -/
inductive ShMicroState where
  /-- `S::AddLowHigh(Op::SH(sh), addr, low_word)` about to read the high
  byte; the byte the bus returns is supplied as `highByte`. -/
  | addLowHigh (op : ShOp) (lowWord : Nat)
  /-- `S::FakeThenActual(Op::SH(sh), base, addr)`. -/
  | fakeThenActual (op : ShOp) (base : Nat) (addr : Nat)
  /-- `S::ExecuteOnAddress(Op::SH(sh), addr, orig_high)`. -/
  | executeOnAddress (op : ShOp) (addr : Nat) (origHigh : Nat)
  /-- `S::FetchOpcode` — the instruction is over. -/
  | fetchOpcode
deriving Repr, DecidableEq

/-- One cycle of `CPU::tick` restricted to the SH micro-states.
`highByte` is the operand high byte the bus returns in the `AddLowHigh`
cycle.  Returns the next micro-state and the bus accesses performed. -/
def shStep (cpu : ShRegs) (highByte : Nat) :
    ShMicroState → ShMicroState × List BusOp
  | .addLowHigh op lowWord =>
      -- let addr = (high_word as u16) << 8 | (low_word & 0xFF);
      let addr := highByte <<< 8 ||| (lowWord &&& 0xFF)
      -- real_addr substitutes the ANDed high byte when low_word > 0xFF
      let realAddr :=
        if lowWord > 0xFF then
          (shExecute cpu op highByte) <<< 8 ||| (lowWord &&& 0xFF)
        else
          highByte <<< 8 ||| (lowWord &&& 0xFF)
      (.fakeThenActual op addr realAddr, [.read (highByte)])
  | .fakeThenActual op base addr =>
      -- host.read(base); ExecuteOnAddress(oc, addr, (base >> 8) as u8)
      (.executeOnAddress op addr ((base >>> 8) &&& 0xFF), [.read base])
  | .executeOnAddress op addr origHigh =>
      -- let val = sh.execute(self, orig_high); host.write(addr, val);
      let val := shExecute cpu op origHigh
      (.fetchOpcode, [.write addr val])
  | .fetchOpcode => (.fetchOpcode, [])

/-- Run the three remaining cycles of an SH store, collecting bus ops. -/
def shRun (cpu : ShRegs) (highByte : Nat) (lowWord : Nat) (op : ShOp) :
    List BusOp :=
  let (s1, t1) := shStep cpu highByte (.addLowHigh op lowWord)
  let (s2, t2) := shStep cpu highByte s1
  let (_, t3) := shStep cpu highByte s2
  t1 ++ t2 ++ t3

/-- C4 counterexample: with `Y = 0xFF`, base address `$1234` (no page
cross), SHY writes `0xFF & 0x12 = 0x12` to `$1234`, not
`0xFF & (0x12 + 1) = 0x13` as the claim states. -/
theorem shy_counterexample :
    shRun ⟨0, 0xFF⟩ 0x12 0x34 .shy =
      [.read 0x12, .read 0x1234, .write 0x1234 0x12] ∧
    0x12 ≠ 0xFF &&& (0x12 + 1) := by
  constructor
  · rfl
  · decide

/-- C4 (amended): the byte an SHY/SHX store writes equals the Y
(respectively X) register ANDed with the high byte of the pre-indexing
base address (with no `+ 1`), and when the indexed address crosses a page
the same ANDed byte is substituted into the high byte of the final write
address. -/
theorem sh_store_value (cpu : ShRegs) (op : ShOp) (highByte lowWord : Nat)
    (hh : highByte < 256) :
    let reg := match op with | .shy => cpu.y | .shx => cpu.x
    shRun cpu highByte lowWord op =
      [.read highByte,
       .read (highByte <<< 8 ||| (lowWord &&& 0xFF)),
       .write
         (if lowWord > 0xFF then
            (reg &&& highByte) <<< 8 ||| (lowWord &&& 0xFF)
          else
            highByte <<< 8 ||| (lowWord &&& 0xFF))
         (reg &&& highByte)] := by
  intro reg
  have horig : (highByte <<< 8 ||| (lowWord &&& 0xFF)) >>> 8 &&& 0xFF = highByte := by
    apply Nat.eq_of_testBit_eq
    intro i
    have h255 : (0xFF : Nat) = 2 ^ 8 - 1 := by norm_num
    simp only [Nat.testBit_and, Nat.testBit_shiftRight, Nat.testBit_or,
      Nat.testBit_shiftLeft, h255, Nat.testBit_two_pow_sub_one]
    have hmaskbit : (lowWord.testBit (8 + i) && decide (8 + i < 8)) = false := by
      simp
    rcases Nat.lt_or_ge i 8 with h | h
    · simp [hmaskbit, Nat.add_sub_cancel_left, h]
    · have h2 : (256 : Nat) ≤ 2 ^ i := by
        have := Nat.pow_le_pow_right (show 1 ≤ 2 by norm_num) h
        norm_num at this
        exact this
      have hfb : highByte.testBit i = false := Nat.testBit_lt_two_pow (by omega)
      simp [hmaskbit, Nat.add_sub_cancel_left, Nat.not_lt.mpr h, hfb]
  simp only [shRun, shStep, horig]
  cases op <;> simp [shExecute, reg]

/-- Witness for `sh_store_value` at a concrete input (SHX, page cross). -/
theorem sh_store_value_witness :
    shRun ⟨0xFE, 0⟩ 0x12 0x134 .shx =
      [.read 0x12, .read 0x1234, .write 0x1234 0x12] := by
  have h := sh_store_value ⟨0xFE, 0⟩ .shx 0x12 0x134 (by norm_num)
  simp only at h
  rw [h]
  decide

/-! ### The single-standard-controller adapter (io.rs)

Button bits (`StandardControllerButtons`): A=0x01, B=0x02, SELECT=0x04,
START=0x08, UP=0x10, DOWN=0x20, LEFT=0x40, RIGHT=0x80.  The host's
`poll_buttons()` result is passed in as a plain byte at each call that
polls it. -/

/-- The mutable state of `SingleStandardController`. -/
structure Controller where
  currentlyHigh : Bool
  latch : Nat
deriving Repr, DecidableEq

/-- First impossible-pair masking step inside `controller_latch_change`:
if UP and DOWN are both pressed, DOWN is removed (`buttons.remove(...)`
clears the bit, i.e. ANDs with the complement byte). -/
def maskUpDown (b : Nat) : Nat :=
  if b &&& 0x30 == 0x30 then b &&& 0xDF else b

/-- Second masking step: if LEFT and RIGHT are both pressed, RIGHT is
removed. -/
def maskLeftRight (b : Nat) : Nat :=
  if b &&& 0xC0 == 0xC0 then b &&& 0x7F else b

/-- Both masking steps, in source order. -/
def maskImpossible (buttons : Nat) : Nat :=
  maskLeftRight (maskUpDown buttons)

/-- `SingleStandardController::controller_latch_change` from io.rs:
record the new strobe level, and on a high→low transition poll the host
buttons, mask impossible pairs, and store them in the latch. -/
def controllerLatchChange (c : Controller) (value : Bool) (polled : Nat) :
    Controller :=
  let c := { c with currentlyHigh := value }
  if !value then
    { c with latch := maskImpossible polled }
  else
    c

/-- `SingleStandardController::controller_port_1_read` from io.rs:
while the strobe is high, return the live A button (bit 0 of the polled
byte, no masking); while low, return bit 0 of the latch and shift the
latch right, feeding 1s in from the top (`(latch >> 1) | 0x80`).
Returns the D0 level and the updated controller. -/
def controllerPort1Read (c : Controller) (polled : Nat) : Bool × Controller :=
  if c.currentlyHigh then
    (polled &&& 0x01 == 0x01, c)
  else
    let latch := c.latch
    (latch &&& 1 == 1, { c with latch := (latch >>> 1) ||| 0x80 })

/-- D0 result of the `n`-th read of $4016 (0-based) starting from
controller state `c`, with `ps n` the byte the host would report if
polled at read `n`. -/
def nthRead (ps : Nat → Nat) (c : Controller) : Nat → Bool
  | 0 => (controllerPort1Read c (ps 0)).1
  | n + 1 => nthRead (fun i => ps (i + 1)) (controllerPort1Read c (ps 0)).2 n

/-- The latch-shift step applied by each read while the strobe is low. -/
def latchShift (l : Nat) : Nat := (l >>> 1) ||| 0x80

/-- `latchShift` iterated `n` times. -/
def latchShiftN (n : Nat) (l : Nat) : Nat :=
  match n with
  | 0 => l
  | n + 1 => latchShiftN n (latchShift l)

theorem nthRead_low (ps : Nat → Nat) (c : Controller)
    (h : c.currentlyHigh = false) (n : Nat) :
    nthRead ps c n = (latchShiftN n c.latch &&& 1 == 1) := by
  induction n generalizing ps c with
  | zero => simp [nthRead, controllerPort1Read, h, latchShiftN]
  | succ n ih =>
      simp only [nthRead, controllerPort1Read, h, Bool.false_eq_true,
        if_false, latchShiftN]
      exact ih _ _ rfl

set_option maxRecDepth 4096 in
theorem latchShiftN_eight (l : Nat) (h : l < 256) : latchShiftN 8 l = 0xFF := by
  revert h
  revert l
  decide

theorem latchShift_ff : latchShift 0xFF = 0xFF := by decide

set_option maxRecDepth 4096 in
theorem latchShiftN_first_eight (l : Nat) (h : l < 256) :
    ∀ i < 8, (latchShiftN i l &&& 1 == 1) = l.testBit i := by
  revert h
  revert l
  decide

/-- C9: after the strobe goes high then low, the buttons polled at the
1→0 edge are latched with the impossible UP+DOWN and LEFT+RIGHT pairs
masked; the first eight reads of $4016 then return on D0 the latched
A, B, SELECT, START, UP, DOWN, LEFT, RIGHT states (bits 0–7) in that
order, and every read from the ninth onward returns 1. -/
theorem controller_strobe_reads (c0 : Controller) (pHigh b : Nat)
    (ps : Nat → Nat) (hb : b < 256) :
    let c := controllerLatchChange (controllerLatchChange c0 true pHigh) false b
    c.latch = maskImpossible b ∧
    (∀ i < 8, nthRead ps c i = (maskImpossible b).testBit i) ∧
    (∀ n, 8 ≤ n → nthRead ps c n = true) := by
  intro c
  have hlow : c.currentlyHigh = false := rfl
  have hlatch : c.latch = maskImpossible b := rfl
  have hmask : maskImpossible b < 256 := by
    have h1 : maskUpDown b ≤ b := by
      unfold maskUpDown
      split
      · exact Nat.and_le_left
      · exact Nat.le_refl _
    have h2 : maskLeftRight (maskUpDown b) ≤ maskUpDown b := by
      unfold maskLeftRight
      split
      · exact Nat.and_le_left
      · exact Nat.le_refl _
    exact Nat.lt_of_le_of_lt (Nat.le_trans h2 h1) hb
  refine ⟨hlatch, ?_, ?_⟩
  · intro i hi
    rw [nthRead_low ps c hlow, hlatch]
    exact latchShiftN_first_eight _ hmask i hi
  · intro n hn
    rw [nthRead_low ps c hlow, hlatch]
    obtain ⟨k, rfl⟩ := Nat.exists_eq_add_of_le hn
    have hsat : ∀ k, latchShiftN (8 + k) (maskImpossible b) = 0xFF := by
      intro k
      induction k with
      | zero => exact latchShiftN_eight _ hmask
      | succ k ih =>
          have : 8 + (k + 1) = (8 + k) + 1 := by omega
          rw [this]
          have hstep : ∀ m l, latchShiftN (m + 1) l = latchShift (latchShiftN m l) := by
            intro m
            induction m with
            | zero => intro l; rfl
            | succ m ihm => intro l; simp only [latchShiftN]; exact ihm _
          rw [hstep, ih, latchShift_ff]
    rw [hsat]
    decide

/-- Witness for `controller_strobe_reads`: pressing A and both UP+DOWN,
the latch keeps A and UP but masks DOWN; the first read returns 1 and the
ninth returns 1. -/
theorem controller_strobe_reads_witness :
    ((controllerLatchChange (controllerLatchChange ⟨false, 0⟩ true 0) false 0x31).latch
        = maskImpossible 0x31) ∧
    nthRead (fun _ => 0) (controllerLatchChange
        (controllerLatchChange ⟨false, 0⟩ true 0) false 0x31) 0 = (maskImpossible 0x31).testBit 0 ∧
    nthRead (fun _ => 0) (controllerLatchChange
        (controllerLatchChange ⟨false, 0⟩ true 0) false 0x31) 8 = true := by
  have h := controller_strobe_reads ⟨false, 0⟩ 0 0x31 (fun _ => 0) (by norm_num)
  simp only at h
  exact ⟨h.1, h.2.1 0 (by norm_num), h.2.2 8 (by norm_num)⟩

/-- C10: while the strobe line is high, a read of $4016 through the
adapter returns on D0 the live A button (bit 0 of the byte polled from
the host at the moment of the read, with no impossible-pair masking) and
leaves the controller state — in particular the shift latch — unchanged. -/
theorem controller_read_strobe_high (c : Controller) (polled : Nat)
    (h : c.currentlyHigh = true) :
    (controllerPort1Read c polled).1 = polled.testBit 0 ∧
    (controllerPort1Read c polled).2 = c := by
  constructor
  · simp only [controllerPort1Read, h, if_true]
    rw [show (0x01 : Nat) = 2 ^ 0 by norm_num, Nat.and_two_pow]
    cases hb : polled.testBit 0 <;> simp
  · simp [controllerPort1Read, h]

/-- Witness for `controller_read_strobe_high` at a concrete input. -/
theorem controller_read_strobe_high_witness :
    (controllerPort1Read ⟨true, 0x55⟩ 0x81).1 = true ∧
    (controllerPort1Read ⟨true, 0x55⟩ 0x81).2 = (⟨true, 0x55⟩ : Controller) := by
  have h := controller_read_strobe_high ⟨true, 0x55⟩ 0x81 rfl
  exact ⟨h.1.trans (by decide), h.2⟩

/-! ### The OAM DMA engine (dma.rs)

`DMA::tick` is called once per CPU cycle before the CPU's own tick; its
`Bool` result says whether the CPU runs this cycle.  Bus reads go through
`Nes::read`, modelled by a pure byte function `mem`; the one write goes
to $2004 (OAMDATA). -/

/-- `DMAState` from dma.rs. -/
inductive DMAState where
  | no
  | req (addrHigh : Nat)
  | dummyRead (addrHigh : Nat)
  | read (addrHigh : Nat) (addrLow : Nat)
  | write (addrHigh : Nat) (addrLow : Nat) (value : Nat)
deriving Repr, DecidableEq

/-- The `DMA` struct from dma.rs: the odd/even bus-phase flag and the
transfer state. -/
structure DMAEngine where
  isOdd : Bool
  state : DMAState
deriving Repr, DecidableEq

/-- `DMA::tick` from dma.rs.  `cpuIsWriteCycle` stands for
`nes.cpu.state.get().is_write_cycle()`; `mem addr` is the byte
`nes.read(addr)` returns.  Result: the engine after the tick, the
`tick_cpu` flag, and the bus accesses performed this cycle. -/
def dmaTick (mem : Nat → Nat) (cpuIsWriteCycle : Bool) (d : DMAEngine) :
    DMAEngine × Bool × List BusOp :=
  let isOdd := d.isOdd
  match d.state with
  | .no => (⟨!isOdd, .no⟩, true, [])
  | .req addrHigh =>
      if cpuIsWriteCycle then
        -- We don't hijack write cycles
        (⟨!isOdd, .req addrHigh⟩, true, [])
      else if isOdd then
        -- This is currently a write cycle. This is good - next is read
        (⟨!isOdd, .read addrHigh 0⟩, false, [])
      else
        -- We're currently on a read, we need to dummy read to be aligned
        (⟨!isOdd, .dummyRead addrHigh⟩, false, [])
  | .dummyRead addrHigh =>
      (⟨!isOdd, .read addrHigh 0⟩, false, [.read (addrHigh <<< 8)])
  | .read addrHigh addrLow =>
      let value := mem (addrHigh <<< 8 ||| addrLow)
      (⟨!isOdd, .write addrHigh addrLow value⟩, false,
        [.read (addrHigh <<< 8 ||| addrLow)])
  | .write addrHigh addrLow value =>
      if addrLow == 255 then
        (⟨!isOdd, .no⟩, false, [.write 0x2004 value])
      else
        (⟨!isOdd, .read addrHigh (addrLow + 1)⟩, false, [.write 0x2004 value])

/-- Run `n` DMA ticks, counting the cycles in which the CPU was stalled
(`tick_cpu == false`) and collecting the bus trace. -/
def dmaRun (mem : Nat → Nat) (cpuIsWriteCycle : Bool) :
    Nat → DMAEngine → DMAEngine × Nat × List BusOp
  | 0, d => (d, 0, [])
  | n + 1, d =>
      let (d1, tickCpu, t) := dmaTick mem cpuIsWriteCycle d
      let (d2, c, t2) := dmaRun mem cpuIsWriteCycle n d1
      (d2, (if tickCpu then 0 else 1) + c, t ++ t2)

theorem dmaRun_add (mem : Nat → Nat) (cw : Bool) (m n : Nat) (d : DMAEngine) :
    dmaRun mem cw (m + n) d =
      ((dmaRun mem cw n (dmaRun mem cw m d).1).1,
       (dmaRun mem cw m d).2.1 + (dmaRun mem cw n (dmaRun mem cw m d).1).2.1,
       (dmaRun mem cw m d).2.2 ++ (dmaRun mem cw n (dmaRun mem cw m d).1).2.2) := by
  induction m generalizing d with
  | zero => simp [dmaRun]
  | succ m ih =>
      have hadd : m + 1 + n = (m + n) + 1 := by omega
      rw [hadd]
      simp only [dmaRun]
      rw [ih]
      simp [Nat.add_assoc, List.append_assoc]

/-- The two bus accesses the engine performs for one byte of the
transfer. -/
def dmaPair (mem : Nat → Nat) (addrHigh lo : Nat) : List BusOp :=
  [.read (addrHigh <<< 8 ||| lo), .write 0x2004 (mem (addrHigh <<< 8 ||| lo))]

theorem dmaRun_transfer (mem : Nat → Nat) (cw : Bool) (page : Nat) :
    ∀ k l, l + k = 255 → ∀ o : Bool,
    dmaRun mem cw (2 * (k + 1)) ⟨o, .read page l⟩ =
      (⟨o, .no⟩, 2 * (k + 1),
        ((List.range' l (k + 1)).map (dmaPair mem page)).flatten) := by
  intro k
  induction k with
  | zero =>
      intro l hl o
      subst_vars
      simp [dmaRun, dmaTick, dmaPair, List.range']
  | succ k ih =>
      intro l hl o
      have hne : (l == 255) = false := by
        simp only [beq_eq_false_iff_ne, ne_eq]
        omega
      have hsplit : 2 * (k + 1 + 1) = 2 + 2 * (k + 1) := by omega
      rw [hsplit, dmaRun_add]
      have h2 : dmaRun mem cw 2 ⟨o, .read page l⟩ =
          (⟨o, .read page (l + 1)⟩, 2, dmaPair mem page l) := by
        simp [dmaRun, dmaTick, hne, dmaPair]
      rw [h2]
      have hrec := ih (l + 1) (by omega) o
      rw [hrec]
      have hrange : List.range' l (k + 1 + 1) = l :: List.range' (l + 1) (k + 1) :=
        List.range'_succ l (k + 1) 1
      rw [hrange]
      simp [dmaPair]

/-- C3: starting at the first DMA arbitration tick after a $4014 write
(state `Req page`), with the CPU not on a write cycle: when the engine's
phase flag `is_odd` is `true` there (i.e. the $4014 write itself landed
on an even CPU cycle), the CPU is stalled for exactly 513 consecutive
cycles, after which the engine is idle and the CPU's pending
instruction-fetch cycle runs; when `is_odd` is `false` (write on an odd
cycle), exactly 514.  During the transfer the engine alternates the 256
reads of `page<<8 | lo`, `lo = 0..255` in order, with the 256 writes of
each byte read to $2004. -/
theorem oam_dma_timing (page : Nat) (mem : Nat → Nat) :
    (dmaRun mem false 513 ⟨true, .req page⟩ =
      (⟨false, .no⟩, 513, ((List.range' 0 256).map (dmaPair mem page)).flatten)) ∧
    (dmaRun mem false 514 ⟨false, .req page⟩ =
      (⟨false, .no⟩, 514, .read (page <<< 8) ::
        ((List.range' 0 256).map (dmaPair mem page)).flatten)) ∧
    (∀ o cw : Bool, dmaTick mem cw ⟨o, .no⟩ = (⟨!o, .no⟩, true, [])) := by
  have htr := dmaRun_transfer mem false page 255 0 (by omega) false
  refine ⟨?_, ?_, ?_⟩
  · have h1 : (513 : Nat) = 1 + 2 * (255 + 1) := by norm_num
    have hstep : dmaRun mem false 1 ⟨true, .req page⟩ =
        (⟨false, .read page 0⟩, 1, []) := by
      simp [dmaRun, dmaTick]
    rw [h1, dmaRun_add]
    simp [hstep, htr]
  · have h2 : (514 : Nat) = 2 + 2 * (255 + 1) := by norm_num
    have hstep : dmaRun mem false 2 ⟨false, .req page⟩ =
        (⟨false, .read page 0⟩, 2, [.read (page <<< 8)]) := by
      simp [dmaRun, dmaTick]
    rw [h2, dmaRun_add]
    simp [hstep, htr]
  · intro o cw
    simp [dmaTick]

/-! ### The PPU (nes/ppu.rs)

Byte arrays (`cgram`, `oam`, `secondary_oam`) are modelled as functions
`Nat → Nat` indexed from 0; bitflag registers (`PPUCTRL`, `PPUMASK`,
`PPUSTATUS`, `SpriteAttributes`) as raw bytes, with `flags &&& bit == bit`
for `contains`, `|||` for `insert` and `&&& complement` for `remove`.
Host accesses (`PPUHostAccess`) are modelled by a pure byte function
`hostRead : Nat → Nat` for `ppu_read`; the host notifications
(`ppu_write`, `ppu_trigger_nmi`, `ppu_suppress_nmi`, `ppu_set_pixel`) do
not change any PPU state and are returned as events where a claim needs
them and omitted otherwise. -/

/-- Pointwise update of a byte array modelled as a function. -/
def updFn (f : Nat → Nat) (i v : Nat) : Nat → Nat :=
  fun j => if j = i then v else f j

/-- `SpriteToRender` from ppu.rs: per-slot sprite latches for the current
scanline.  `attributes` is the raw `SpriteAttributes` byte. -/
structure SpriteToRender where
  x : Nat
  lowPattern : Nat
  highPattern : Nat
  attributes : Nat
deriving Repr, DecidableEq

/-- The `PPU` struct from ppu.rs (all `Cell` fields). -/
structure PPUState where
  cgram : Nat → Nat
  oam : Nat → Nat
  secondaryOam : Nat → Nat
  scanline : Nat
  dot : Nat
  oddFrame : Bool
  ppuctrl : Nat
  ppumask : Nat
  ppustatus : Nat
  oamaddr : Nat
  readBuffer : Nat
  lastRead : Nat
  clearVblank : Bool
  addrV : Nat
  addrT : Nat
  fineX : Nat
  latchW : Bool
  fetchAddr : Nat
  fetchedNametable : Nat
  fetchedAttributeTable : Nat
  fetchedBgPatternLow : Nat
  fetchedBgPatternHigh : Nat
  atLatchL : Nat
  atLatchH : Nat
  bgHighShift : Nat
  bgLowShift : Nat
  atShiftL : Nat
  atShiftH : Nat
  secondaryOamAddr : Nat
  oamValueLatch : Nat
  spriteInRange : Bool
  spriteEvaluationDone : Bool
  spriteZeroNextScanline : Bool
  sprites : Nat → SpriteToRender
  spriteZeroCurrentScanline : Bool
  numSprites : Nat
  performSkip : Bool

/-- `bitflags` single/multi-bit `contains`: all bits of `b` present. -/
def hasBits (flags b : Nat) : Bool := flags &&& b == b

/-- `PPU::is_rendering`: PPUMASK shows background (0x08) or sprites
(0x10). -/
def PPUState.isRendering (st : PPUState) : Bool :=
  hasBits st.ppumask 0x08 || hasBits st.ppumask 0x10

/-- `PPU::is_rendering_scanline` exactly as written in ppu.rs:
`scanline < 240 || scanline == 321`. -/
def PPUState.isRenderingScanline (st : PPUState) : Bool :=
  st.scanline < 240 || st.scanline == 321

/-- `PPU::is_at_frame_end`: dot 1 of scanline 241. -/
def PPUState.isAtFrameEnd (st : PPUState) : Bool :=
  st.dot == 1 && st.scanline == 241

/-- `PPU::get_sprite_size`: 16 with `PPUCTRL::LARGE_SPRITES` (0x20), else
8. -/
def PPUState.getSpriteSize (st : PPUState) : Nat :=
  if hasBits st.ppuctrl 0x20 then 16 else 8

/-- `PPU::cgram_mirror_idx` from ppu.rs: palette indices
$10/$14/$18/$1C are mirrors of $00/$04/$08/$0C. -/
def cgramMirrorIdx (idx : Nat) : Nat :=
  if idx = 0x10 ∨ idx = 0x14 ∨ idx = 0x18 ∨ idx = 0x1C then idx - 0x10
  else idx

/-- `PPU::read` from ppu.rs.  Addresses below $3F00 (after the $4000
mirror) go to the host; palette addresses read `cgram` through the
mirror, with greyscale (`PPUMASK` bit 0x01) masking with $30.
(The `_ => panic!` arm is unreachable: `addr % 0x4000 < 0x4000`.) -/
def ppuRead (hostRead : Nat → Nat) (st : PPUState) (addr : Nat) : Nat :=
  if addr % 0x4000 ≤ 0x3EFF then
    hostRead addr
  else
    let idx := (addr % 0x4000 - 0x3F00) % 32
    if hasBits st.ppumask 0x01 then
      st.cgram (cgramMirrorIdx idx) &&& 0x30
    else
      st.cgram (cgramMirrorIdx idx)

/-- `PPU::write` from ppu.rs.  Palette addresses write `cgram` through
the mirror; lower addresses are forwarded to the host
(`host.ppu_write`), reported here as a `BusOp.write` event. -/
def ppuWriteCell (st : PPUState) (addr value : Nat) : PPUState × List BusOp :=
  if addr % 0x4000 ≤ 0x3EFF then
    (st, [.write addr value])
  else
    let idx := (addr % 0x4000 - 0x3F00) % 32
    ({ st with cgram := updFn st.cgram (cgramMirrorIdx idx) value }, [])

/-- `PPU::new` from ppu.rs: every register, latch and memory cell starts
at zero / false. -/
def initPPU : PPUState :=
  { cgram := fun _ => 0, oam := fun _ => 0, secondaryOam := fun _ => 0
    scanline := 0, dot := 0, oddFrame := false, ppuctrl := 0
    ppumask := 0, ppustatus := 0, oamaddr := 0, readBuffer := 0
    lastRead := 0, clearVblank := false, addrV := 0, addrT := 0
    fineX := 0, latchW := false, fetchAddr := 0, fetchedNametable := 0
    fetchedAttributeTable := 0, fetchedBgPatternLow := 0
    fetchedBgPatternHigh := 0, atLatchL := 0, atLatchH := 0
    bgHighShift := 0, bgLowShift := 0, atShiftL := 0, atShiftH := 0
    secondaryOamAddr := 0, oamValueLatch := 0, spriteInRange := false
    spriteEvaluationDone := false, spriteZeroNextScanline := false
    sprites := fun _ => ⟨0, 0, 0, 0⟩, spriteZeroCurrentScanline := false
    numSprites := 0, performSkip := false }

/-- Host notifications a PPU register access can raise
(`ppu_trigger_nmi` / `ppu_suppress_nmi`). -/
inductive PpuEvent where
  | triggerNmi
  | suppressNmi
deriving Repr, DecidableEq

/-- `PPU::reg_read` from ppu.rs.  Returns the byte placed on the data
bus (`self.last_read.get()`), the updated PPU and the host
notifications raised. -/
def regRead (hostRead : Nat → Nat) (st : PPUState) (reg : Nat) :
    Nat × PPUState × List PpuEvent :=
  let (st, evs) :=
    if reg = 2 then
      let s := st.ppustatus
      let n := (st.lastRead &&& 0x1F) ||| s
      let st := { st with clearVblank := true }
      let evs :=
        if st.scanline = 241 ∧ (st.dot = 2 ∨ st.dot = 3) then
          [PpuEvent.suppressNmi]
        else []
      ({ st with latchW := false, lastRead := n }, evs)
    else if reg = 4 then
      let addr := st.oamaddr
      let v := st.oam addr
      -- byte 2 of each sprite reads back with mask 0xE3
      let v := if addr &&& 0b11 == 2 then v &&& 0xE3 else v
      ({ st with lastRead := v }, [])
    else if reg = 7 then
      let v := st.addrV % 0x4000
      let n := if v < 0x3F00 then st.readBuffer else ppuRead hostRead st v
      let st := { st with readBuffer := hostRead v }
      let incr := if hasBits st.ppuctrl 0x04 then 32 else 1
      let st := { st with addrV := (v + incr) % (1 <<< 15) }
      ({ st with lastRead := n }, [])
    else
      (st, [])
  (st.lastRead, st, evs)

/-- `PPU::reg_write` from ppu.rs.  Returns the updated PPU, the host
notifications raised, and any write forwarded to the PPU bus
(`host.ppu_write` via `PPU::write`). -/
def regWrite (st : PPUState) (reg value : Nat) :
    PPUState × List PpuEvent × List BusOp :=
  let st := { st with lastRead := value }
  if reg = 0 then
    let oldCtrl := st.ppuctrl
    let newCtrl := value &&& 0xFF  -- PPUCTRL::from_bits_truncate: all 8 bits defined
    let st := { st with ppuctrl := newCtrl }
    let evs :=
      (if ¬ hasBits oldCtrl 0x80 ∧ hasBits newCtrl 0x80 ∧ hasBits st.ppustatus 0x80
          ∧ ¬ (st.scanline = 261 ∧ st.dot = 1) then
        [PpuEvent.triggerNmi]
      else []) ++
      (if hasBits oldCtrl 0x80 ∧ ¬ hasBits newCtrl 0x80 ∧ st.scanline = 241
          ∧ (st.dot = 2 ∨ st.dot = 3) then
        [PpuEvent.suppressNmi]
      else [])
    -- t: ...BA.. ........ = d: ......BA
    let t := st.addrT
    let newT := (t &&& 0b111001111111111) ||| ((value &&& 0b11) <<< 10)
    ({ st with addrT := newT }, evs, [])
  else if reg = 1 then
    ({ st with ppumask := value &&& 0xFF }, [], [])
  else if reg = 3 then
    ({ st with oamaddr := value }, [], [])
  else if reg = 4 then
    if ¬ (st.isRendering ∧ st.isRenderingScanline) then
      let oamaddr := st.oamaddr
      ({ st with oam := updFn st.oam oamaddr value,
                 oamaddr := (oamaddr + 1) % 256 }, [], [])
    else
      (st, [], [])
  else if reg = 5 then
    if st.latchW then
      -- t: CBA..HG FED..... = d: HGFEDCBA
      let cba := (value &&& 0b111) <<< 12
      let hgfed := (value &&& 0b11111000) <<< 2  -- value & !0b111 on u8
      let t := st.addrT
      let newT := (t &&& 0b110000011111) ||| cba ||| hgfed
      ({ st with addrT := newT, latchW := false }, [], [])
    else
      -- t: ....... ...HGFED = d: HGFED...
      let t := st.addrT
      let newT := (t &&& (0x7FFF ^^^ 0b11111)) ||| (value >>> 3)
      ({ st with addrT := newT, fineX := value &&& 0b111, latchW := true }, [], [])
  else if reg = 6 then
    if st.latchW then
      -- t: ....... HGFEDCBA = d: HGFEDCBA ; v = t
      let t := st.addrT
      let newT := (t &&& (0x7FFF ^^^ 0xFF)) ||| value
      ({ st with addrT := newT, addrV := newT, latchW := false }, [], [])
    else
      -- t: .FEDCBA ........ = d: ..FEDCBA ; t bit 14 = 0
      let t := st.addrT
      let newT := (t &&& 0b11111111) ||| ((value &&& 0b111111) <<< 8)
      ({ st with addrT := newT, latchW := true }, [], [])
  else if reg = 7 then
    let v := st.addrV
    let incr := if hasBits st.ppuctrl 0x04 then 32 else 1
    let (st, ws) := ppuWriteCell st v value
    ({ st with addrV := (v + incr) % (1 <<< 15) }, [], ws)
  else
    (st, [], [])

/-! ### Nametable mirroring (nes/mappers/common.rs) -/

/-- `MirrorMode` from mappers/common.rs. -/
inductive MirrorMode where
  | oneScreenLower
  | oneScreenHigher
  | vertical
  | horizontal
deriving Repr, DecidableEq

/-- `get_vram_cell` from mappers/common.rs, as the index into the 2 KiB
nametable RAM it resolves to (`none` for the `panic!` arms).  Addresses
$3000–$3FFF recurse to the underlying $2000–$2FFF mirror. -/
def getVramIdx (mode : MirrorMode) (addr : Nat) : Option Nat :=
  if h : 0x3000 ≤ addr ∧ addr ≤ 0x3FFF then
    getVramIdx mode (addr - 0x1000)
  else if 0x2000 ≤ addr ∧ addr ≤ 0x2FFF then
    let offset :=
      if addr ≤ 0x23FF then addr - 0x2000
      else if addr ≤ 0x27FF then addr - 0x2400
      else if addr ≤ 0x2BFF then addr - 0x2800
      else addr - 0x2C00
    let base :=
      match mode with
      | .oneScreenLower => 0
      | .oneScreenHigher => 0x400
      | .horizontal =>
          if addr ≤ 0x23FF then 0
          else if addr ≤ 0x27FF then 0
          else if addr ≤ 0x2BFF then 0x400
          else 0x400
      | .vertical =>
          if addr ≤ 0x23FF then 0
          else if addr ≤ 0x27FF then 0x400
          else if addr ≤ 0x2BFF then 0
          else 0x400
    some (base + offset)
  else
    none
termination_by addr
decreasing_by omega

/-- C5: a CPU read of $2007 (PPUDATA) returns the previous read-buffer
content when `v % $4000` is below $3F00 and the live palette entry
(greyscale off) when it is in $3F00–$3FFF; in both cases the buffer is
refreshed with the byte the cartridge supplies at `v` — which for a
palette address is the nametable data underlying the mirror, since the
cartridge resolves $3F00–$3FFF through the same nametable cell as the
address minus $1000 — and `v` is incremented by 32 or 1 according to
PPUCTRL bit 2. -/
theorem ppudata_read_spec (hostRead : Nat → Nat) (st : PPUState)
    (hg : hasBits st.ppumask 0x01 = false) :
    let v := st.addrV % 0x4000
    let incr : Nat := if hasBits st.ppuctrl 0x04 then 32 else 1
    let r := regRead hostRead st 7
    (v < 0x3F00 → r.1 = st.readBuffer) ∧
    (0x3F00 ≤ v → r.1 = st.cgram (cgramMirrorIdx ((v - 0x3F00) % 32))) ∧
    r.2.1.readBuffer = hostRead v ∧
    r.2.1.addrV = (v + incr) % 0x8000 ∧
    (∀ mode, 0x3F00 ≤ v →
      getVramIdx mode v = getVramIdx mode (v - 0x1000)) := by
  intro v incr r
  have hv4 : v < 0x4000 := Nat.mod_lt _ (by norm_num)
  refine ⟨?_, ?_, ?_, ?_, ?_⟩
  · intro hlt
    simp [r, regRead, v, hlt]
  · intro hge
    have hge' : 0x3F00 ≤ st.addrV % 0x4000 := hge
    have hnl : ¬ st.addrV % 0x4000 < 0x3F00 := Nat.not_lt.mpr hge
    have hmm : st.addrV % 0x4000 % 0x4000 = st.addrV % 0x4000 :=
      Nat.mod_mod_of_dvd _ (Nat.dvd_refl _)
    have hnle : ¬ st.addrV % 0x4000 ≤ 0x3EFF := by omega
    simp [r, regRead, v, hnl, ppuRead, hmm, hg, hnle]
  · simp [r, regRead, v]
  · have h15 : (1 <<< 15 : Nat) = 0x8000 := by decide
    simp [r, regRead, v, h15]
  · intro mode hge
    have hge' : 0x3F00 ≤ st.addrV % 0x4000 := hge
    have hrange : 0x3000 ≤ st.addrV % 0x4000 ∧ st.addrV % 0x4000 ≤ 0x3FFF := by
      constructor
      · omega
      · omega
    show getVramIdx mode (st.addrV % 0x4000) =
      getVramIdx mode (st.addrV % 0x4000 - 0x1000)
    rw [getVramIdx.eq_def, dif_pos hrange]

/-- Witness for `ppudata_read_spec`: palette read at `v = $3F05`. -/
theorem ppudata_read_spec_witness :
    (hasBits (initPPU.ppumask) 0x01 = false) ∧
    (regRead (fun a => a % 256)
      { initPPU with addrV := 0x3F05, cgram := fun i => 0x20 + i } 7).1 = 0x25 ∧
    (regRead (fun a => a % 256)
      { initPPU with addrV := 0x3F05, cgram := fun i => 0x20 + i } 7).2.1.readBuffer
        = 0x05 := by
  have h := ppudata_read_spec (fun a => a % 256)
    { initPPU with addrV := 0x3F05, cgram := fun i => 0x20 + i } (by decide)
  simp only at h
  refine ⟨by decide, ?_, ?_⟩
  · have h2 := h.2.1 (by norm_num)
    rw [h2]
    norm_num [cgramMirrorIdx]
  · have h3 := h.2.2.1
    rw [h3]

/-- C6 (code evaluated at the failing input): with rendering enabled
(PPUMASK shows background) on the pre-render scanline 261, a $2004
(OAMDATA) write is **not** dropped — `is_rendering_scanline` in ppu.rs
tests `scanline == 321`, which no scanline ever equals, instead of the
pre-render scanline 261 — so the OAM byte is stored and OAMADDR is
incremented. -/
theorem oamdata_write_prerender_not_dropped :
    ((regWrite { initPPU with ppumask := 0x08, scanline := 261, oamaddr := 5 }
        4 0xAB).1.oam 5 = 0xAB ∧
     (regWrite { initPPU with ppumask := 0x08, scanline := 261, oamaddr := 5 }
        4 0xAB).1.oamaddr = 6) ∧
    ({ initPPU with ppumask := 0x08, scanline := 261, oamaddr := 5 }
      : PPUState).isRendering = true ∧
    -- while on a visible scanline the same write is dropped:
    (regWrite { initPPU with ppumask := 0x08, scanline := 100, oamaddr := 5 }
        4 0xAB).1.oam 5 = 0 := by
  refine ⟨⟨?_, ?_⟩, by decide, ?_⟩
  · simp [regWrite, PPUState.isRendering, PPUState.isRenderingScanline,
      hasBits, updFn, initPPU]
  · simp [regWrite, PPUState.isRendering, PPUState.isRenderingScanline,
      hasBits, initPPU]
  · simp [regWrite, PPUState.isRendering, PPUState.isRenderingScanline,
      hasBits, initPPU]

/-- C8: each of the palette address pairs
($3F10,$3F00), ($3F14,$3F04), ($3F18,$3F08), ($3F1C,$3F0C) accesses the
same palette cell in both directions: with greyscale off, writing
through either address of the pair and reading back through the other
returns the written value, for every starting palette and every value. -/
theorem palette_mirror_pairs (st : PPUState) (value : Nat)
    (hg : hasBits st.ppumask 0x01 = false) (k : Fin 4) :
    let mirror : Nat := 0x3F10 + 4 * k.val
    let base : Nat := 0x3F00 + 4 * k.val
    ppuRead (fun _ => 0) ((ppuWriteCell st mirror value).1) base = value ∧
    ppuRead (fun _ => 0) ((ppuWriteCell st base value).1) mirror = value := by
  intro mirror base
  have hcases : k.val = 0 ∨ k.val = 1 ∨ k.val = 2 ∨ k.val = 3 := by omega
  rcases hcases with h | h | h | h <;>
    simp [mirror, base, h, ppuRead, ppuWriteCell, cgramMirrorIdx, updFn, hg]

/-- Witness for `palette_mirror_pairs` on the ($3F10,$3F00) pair. -/
theorem palette_mirror_pairs_witness :
    (hasBits initPPU.ppumask 0x01 = false) ∧
    ppuRead (fun _ => 0) ((ppuWriteCell initPPU 0x3F10 0x2A).1) 0x3F00 = 0x2A := by
  have h := palette_mirror_pairs initPPU 0x2A (by decide) 0
  exact ⟨by decide, h.1⟩

/-! ### PPU per-dot tick (ppu.rs)

The embedding of `PPU::tick` and its helpers.  `hostRead` models
`host.ppu_read` (a pure byte function).  Host notifications raised
during a tick (`ppu_set_pixel`, `ppu_trigger_nmi`) and the pure bus
reads whose results are discarded (`self.read` at dots 338/340, the
palette lookup feeding `ppu_set_pixel`) change no PPU state and are
omitted from the state transformer. -/

/-- `PPU::nt_addr`. -/
def ntAddr (st : PPUState) : Nat := 0x2000 ||| (st.addrV &&& 0xFFF)

/-- `PPU::at_addr`. -/
def atAddr (st : PPUState) : Nat :=
  let v := st.addrV
  0x23C0 ||| (v &&& 0x0C00) ||| ((v >>> 4) &&& 0x38) ||| ((v >>> 2) &&& 0x07)

/-- `PPU::bg_addr`. -/
def bgAddr (st : PPUState) : Nat :=
  let base := if hasBits st.ppuctrl 0x10 then 0x1000 else 0
  base + st.fetchedNametable * 16 + ((st.addrV &&& 0x7000) >>> 12)

/-- `PPU::reload_bg_shift`. -/
def reloadBgShift (st : PPUState) : PPUState :=
  let st := { st with
    bgLowShift := (st.bgLowShift &&& 0xFF00) ||| st.fetchedBgPatternLow,
    bgHighShift := (st.bgHighShift &&& 0xFF00) ||| st.fetchedBgPatternHigh }
  let atByte := st.fetchedAttributeTable
  { st with atLatchL := atByte &&& 1, atLatchH := (atByte &&& 2) >>> 1 }

/-- `PPU::h_scroll` (coarse X increment; only when rendering). -/
def hScroll (st : PPUState) : PPUState :=
  if ¬ st.isRendering then st
  else
    let v := st.addrV
    if v &&& 0x001F = 31 then
      let v := v &&& 0xFFE0   -- v &= !0x001F (u16)
      { st with addrV := v ^^^ 0x0400 }
    else
      { st with addrV := v + 1 }

/-- `PPU::v_scroll` (fine/coarse Y increment; only when rendering). -/
def vScroll (st : PPUState) : PPUState :=
  if ¬ st.isRendering then st
  else
    let v := st.addrV
    if v &&& 0x7000 ≠ 0x7000 then
      { st with addrV := v + 0x1000 }
    else
      let v := v &&& 0x8FFF   -- v &= !0x7000 (u16)
      let y := (v &&& 0x03E0) >>> 5
      let (y, v) :=
        if y = 29 then (0, v ^^^ 0x0800)
        else if y = 31 then (0, v)
        else (y + 1, v)
      { st with addrV := (v &&& 0xFC1F) ||| (y <<< 5) }  -- v & !0x03E0 (u16)

/-- `PPU::h_update` (`hori(v) = hori(t)`; only when rendering). -/
def hUpdate (st : PPUState) : PPUState :=
  if ¬ st.isRendering then st
  else
    { st with addrV := (st.addrV &&& 0xFBE0) ||| (st.addrT &&& 0x41F) }

/-- `PPU::v_update` (`vert(v) = vert(t)`; only when rendering). -/
def vUpdate (st : PPUState) : PPUState :=
  if ¬ st.isRendering then st
  else
    { st with addrV := (st.addrV &&& 0x841F) ||| (st.addrT &&& 0x7BE0) }

/-- The background pattern bits the pixel mux reads at fine-X for this
dot (the two shift-register taps in `PPU::pixel`). -/
def bgPatternAt (st : PPUState) : Nat :=
  let fx := st.fineX
  (((st.bgHighShift >>> (15 - fx)) &&& 1) <<< 1) |||
    ((st.bgLowShift >>> (15 - fx)) &&& 1)

/-- The background palette index of `PPU::pixel` (0 when the background
is disabled, masked off in the leftmost column, or its pattern is 0). -/
def bgPaletteAt (st : PPUState) (x : Nat) : Nat :=
  if hasBits st.ppumask 0x08 ∧ ¬ (¬ hasBits st.ppumask 0x02 ∧ x < 8) then
    let fx := st.fineX
    let pattern := bgPatternAt st
    if pattern = 0 then 0
    else
      pattern |||
        (((((st.atShiftH >>> (7 - fx)) &&& 1) <<< 1) |||
          ((st.atShiftL >>> (7 - fx)) &&& 1)) <<< 2)
  else 0

/-- The pattern bits of sprite slot `i` at screen column `x`
(the `sprite_palette` computation in `PPU::pixel`, including the
horizontal flip). -/
def spritePatternAt (st : PPUState) (i x : Nat) : Nat :=
  let spriteX := (st.sprites i).x
  let offset := x - spriteX
  let attr := (st.sprites i).attributes
  let offset := if hasBits attr 0x40 then 7 - offset else offset
  let hs := (st.sprites i).highPattern
  let ls := (st.sprites i).lowPattern
  (((hs >>> (7 - offset)) &&& 1) <<< 1) ||| ((ls >>> (7 - offset)) &&& 1)

/-- The accumulator of the sprite mux loop in `PPU::pixel`: the
foreground palette, the priority latch, and PPUSTATUS (which the loop
may set the sprite-0-hit bit in). -/
structure SpriteMuxAcc where
  palette : Nat
  prioBehind : Bool
  ppustatus : Nat
deriving Repr, DecidableEq

/-- One iteration of `for i in (0..num_sprites).rev()` in `PPU::pixel`. -/
def spriteLoopStep (st : PPUState) (x bgPalette : Nat) (acc : SpriteMuxAcc)
    (i : Nat) : SpriteMuxAcc :=
  let spriteX := (st.sprites i).x
  if spriteX ≤ x ∧ x < spriteX + 8 then
    let spritePalette := spritePatternAt st i x
    if spritePalette ≠ 0 then
      let status :=
        if st.spriteZeroCurrentScanline ∧ x ≠ 255 ∧ bgPalette ≠ 0 ∧ i = 0 then
          acc.ppustatus ||| 0x40
        else acc.ppustatus
      let attr := (st.sprites i).attributes
      { palette := ((attr &&& 3) <<< 2 ||| spritePalette) + 16,
        prioBehind := hasBits attr 0x20,
        ppustatus := status }
    else acc
  else acc

/-- The whole sprite mux loop, slots `num_sprites-1` down to `0`. -/
def spriteLoop (st : PPUState) (x bgPalette : Nat) : SpriteMuxAcc :=
  (List.range st.numSprites).reverse.foldl (spriteLoopStep st x bgPalette)
    ⟨0, true, st.ppustatus⟩

/-- `PPU::pixel`: on a visible dot, run the mux (whose only state effect
is the possible sprite-0-hit insertion); afterwards shift the four
background shift registers (u16/u8 shifts drop the top bit). -/
def pixelApply (st : PPUState) : PPUState :=
  let st :=
    if st.scanline < 240 ∧ 2 ≤ st.dot ∧ st.dot - 2 < 256 then
      let x := st.dot - 2
      let bgPalette := bgPaletteAt st x
      if 1 ≤ st.scanline ∧ hasBits st.ppumask 0x10
          ∧ ¬ (¬ hasBits st.ppumask 0x04 ∧ x < 8) then
        { st with ppustatus := (spriteLoop st x bgPalette).ppustatus }
      else st
    else st
  { st with
    bgLowShift := (st.bgLowShift <<< 1) &&& 0xFFFF,
    bgHighShift := (st.bgHighShift <<< 1) &&& 0xFFFF,
    atShiftL := ((st.atShiftL <<< 1) ||| st.atLatchL) &&& 0xFF,
    atShiftH := ((st.atShiftH <<< 1) ||| st.atLatchH) &&& 0xFF }

/-- Write-back of the sprite-evaluation locals at the end of the
even-dot branch of `perform_sprite_evaluation`:
`oamaddr := (n << 2 | m)` as a `u8`. -/
def evalWriteback (st : PPUState) (spriteInRange : Bool)
    (secondaryOamAddr n m : Nat) : PPUState :=
  { st with spriteInRange := spriteInRange,
            secondaryOamAddr := secondaryOamAddr,
            oamaddr := (n <<< 2 ||| m) &&& 0xFF }

/-- The even-dot body of `PPU::perform_sprite_evaluation` (dots 66–256). -/
def evalEven (st : PPUState) : PPUState :=
  let secondaryOamAddr := st.secondaryOamAddr
  let spriteInRange := st.spriteInRange
  let n := (st.oamaddr >>> 2) &&& 0x3F
  let m := st.oamaddr &&& 0b11
  let value := st.oamValueLatch
  if 66 ≤ st.dot ∧ st.dot ≤ 256 then
    if st.spriteEvaluationDone then
      -- 4. attempt (and fail) to copy; increment n
      evalWriteback st spriteInRange secondaryOamAddr (n + 1) m
    else
      let spriteInRange :=
        if ¬ spriteInRange ∧ st.scanline ≥ value
            ∧ st.scanline < value + st.getSpriteSize then
          true
        else spriteInRange
      let st :=
        if st.dot = 66 then { st with spriteZeroNextScanline := spriteInRange }
        else st
      if secondaryOamAddr < 0x20 then
        let st := { st with
          secondaryOam := updFn st.secondaryOam secondaryOamAddr value }
        if spriteInRange then
          -- 1a. copy remaining bytes of the sprite into secondary OAM
          let m := m + 1
          let secondaryOamAddr := secondaryOamAddr + 1
          if m = 4 then
            let n := (n + 1) % 64
            -- 2a. if n overflowed to 0 (all 64 evaluated), go to 4
            let st :=
              if n = 0 then { st with spriteEvaluationDone := true } else st
            evalWriteback st false secondaryOamAddr n 0
          else
            evalWriteback st spriteInRange secondaryOamAddr n m
        else
          let n := (n + 1) % 64
          let st :=
            if n = 0 then { st with spriteEvaluationDone := true } else st
          evalWriteback st spriteInRange secondaryOamAddr n m
      else
        if spriteInRange then
          -- 3a. secondary OAM full and sprite in range: overflow flag
          let st := { st with ppustatus := st.ppustatus ||| 0x20,
                              spriteEvaluationDone := true }
          evalWriteback st spriteInRange secondaryOamAddr n m
        else
          -- 3b. the documented m-increment hardware bug
          let n := (n + 1) % 64
          let st :=
            if n = 0 then { st with spriteEvaluationDone := true } else st
          evalWriteback st spriteInRange secondaryOamAddr n ((m + 1) % 4)
  else
    evalWriteback st spriteInRange secondaryOamAddr n m

/-- `PPU::perform_sprite_evaluation`. -/
def performSpriteEvaluation (st : PPUState) : PPUState :=
  let dot := st.dot
  if dot = 0 then st
  else if dot < 65 then
    { st with secondaryOam := updFn st.secondaryOam ((dot - 1) / 2) 0xFF }
  else if dot = 65 then
    { st with secondaryOamAddr := 0, spriteInRange := false,
              spriteEvaluationDone := false,
              oamValueLatch := st.oam st.oamaddr }
  else if dot ≤ 256 then
    if dot % 2 = 1 then
      { st with oamValueLatch := st.oam st.oamaddr }
    else
      evalEven st
  else st

/-- Update of one sprite slot. -/
def updSprite (sprites : Nat → SpriteToRender) (i : Nat)
    (g : SpriteToRender → SpriteToRender) : Nat → SpriteToRender :=
  fun j => if j = i then g (sprites j) else sprites j

/-- The sprite pattern-fetch pipeline of `PPU::tick`, dots 257–320
(the `257..=320` arm). -/
def spriteLoading (hostRead : Nat → Nat) (st : PPUState) : PPUState :=
  let s := st.dot - 257
  let spriteNo := s / 8
  if s % 8 = 4 then
    -- load data from secondary OAM
    let base := spriteNo * 4
    let y := st.secondaryOam base
    let tileIndex := st.secondaryOam (base + 1)
    -- SpriteAttributes::from_bits_truncate keeps bits 0x01|0x02|0x20|0x40|0x80
    let attributes := st.secondaryOam (base + 2) &&& 0xE3
    let x := st.secondaryOam (base + 3)
    let addr :=
      if st.getSpriteSize = 16 then
        let bank := if tileIndex &&& 1 = 1 then 0x1000 else 0x0000
        bank + (tileIndex &&& 0xFFFE) * 16   -- (tile_index as u16 & !1) * 16
      else
        let base := if hasBits st.ppuctrl 0x08 then 0x1000 else 0x0000
        base + tileIndex * 16
    if y < 240 then
      -- scanline.wrapping_sub(y) on u16, then % sprite size
      let yOffset := ((st.scanline + 0x10000 - y) % 0x10000) % st.getSpriteSize
      let yOffset :=
        if hasBits attributes 0x80 then st.getSpriteSize - yOffset - 1
        else yOffset
      let st :=
        if yOffset > 8 then { st with fetchAddr := addr + 16 + (yOffset - 8) }
        else { st with fetchAddr := addr + yOffset }
      let sprites2 := updSprite st.sprites spriteNo
        (fun sp => { sp with x := x, attributes := attributes })
      let st := { st with sprites := sprites2 }
      { st with numSprites := spriteNo + 1 }
    else st
  else if s % 8 = 5 then
    let sprites2 := updSprite st.sprites spriteNo
      (fun sp => { sp with lowPattern := ppuRead hostRead st st.fetchAddr })
    { st with sprites := sprites2 }
  else if s % 8 = 6 then
    { st with fetchAddr := st.fetchAddr + 8 }
  else if s % 8 = 7 then
    let sprites2 := updSprite st.sprites spriteNo
      (fun sp => { sp with highPattern := ppuRead hostRead st st.fetchAddr })
    { st with sprites := sprites2 }
  else
    st   -- s % 8 = 0..3: garbage nametable fetches, no state effect

/-- The background-pipeline eight-dot cycle of `PPU::tick`
(the `match self.dot.get() % 8` inside the `2..=255 | 321..=337` arm). -/
def bgFetchCycle (hostRead : Nat → Nat) (st : PPUState) : PPUState :=
  if st.dot % 8 = 1 then
    let st := { st with fetchAddr := ntAddr st }
    reloadBgShift st
  else if st.dot % 8 = 2 then
    { st with fetchedNametable := ppuRead hostRead st st.fetchAddr }
  else if st.dot % 8 = 3 then
    { st with fetchAddr := atAddr st }
  else if st.dot % 8 = 4 then
    let atByte := ppuRead hostRead st st.fetchAddr
    let v := st.addrV
    let atByte := if v &&& 0x40 = 0x40 then atByte >>> 4 else atByte
    let atByte := if v &&& 0x2 = 0x2 then atByte >>> 2 else atByte
    { st with fetchedAttributeTable := atByte }
  else if st.dot % 8 = 5 then
    { st with fetchAddr := bgAddr st }
  else if st.dot % 8 = 6 then
    { st with fetchedBgPatternLow := ppuRead hostRead st st.fetchAddr }
  else if st.dot % 8 = 7 then
    { st with fetchAddr := (st.fetchAddr + 8) % 0x10000 }  -- wrapping_add on u16
  else
    -- dot % 8 = 0
    let st := { st with fetchedBgPatternHigh := ppuRead hostRead st st.fetchAddr }
    hScroll st

/-- The two status clears at dots 0/1 of the pre-render scanline (the
start of the `0..=239 | 261` arm of `PPU::tick`). -/
def bgStatusClears (st : PPUState) : PPUState :=
  let st :=
    if st.scanline = 261 ∧ st.dot = 0 then
      { st with ppustatus := st.ppustatus &&& 0xDF }   -- remove SPRITE_OVERFLOW
    else st
  if st.scanline = 261 ∧ st.dot = 1 then
    { st with ppustatus := st.ppustatus &&& 0x3F }   -- remove VBLANK | SPRITE_0_HIT
  else st

/-- The background-processing `match self.dot.get()` of `PPU::tick`
(arms in source order; Rust picks the first matching arm, so dot 321
takes the `1 | 321` arm, not `321..=337`). -/
def bgDotDispatch (hostRead : Nat → Nat) (st : PPUState) : PPUState :=
  if st.dot = 1 ∨ st.dot = 321 then
    { st with fetchAddr := ntAddr st }
  else if (2 ≤ st.dot ∧ st.dot ≤ 255) ∨ (321 ≤ st.dot ∧ st.dot ≤ 337) then
    let st := pixelApply st
    bgFetchCycle hostRead st
  else if st.dot = 256 then
    let st := pixelApply st
    let st := { st with fetchedBgPatternHigh := ppuRead hostRead st st.fetchAddr }
    vScroll st
  else if st.dot = 257 then
    let st := pixelApply st
    let st := reloadBgShift st
    hUpdate st
  else if (280 ≤ st.dot ∧ st.dot ≤ 304) ∧ st.scanline = 261 then
    vUpdate st
  else
    st   -- dots 338/340 perform a pure dummy read; no state change

/-- OAMADDR is zeroed across dots 257–320 of rendering scanlines. -/
def bgOamZero (st : PPUState) : PPUState :=
  if 257 ≤ st.dot ∧ st.dot ≤ 320 then { st with oamaddr := 0 } else st

/-- The odd-frame-skip latch: set at (261,338) when rendering on an odd
frame; consumed at (261,339) by advancing the dot an extra step. -/
def bgSkip (st : PPUState) : PPUState :=
  let st :=
    if st.scanline = 261 ∧ st.dot = 338 ∧ st.isRendering ∧ st.oddFrame then
      { st with performSkip := true }
    else st
  if st.scanline = 261 ∧ st.dot = 339 ∧ st.performSkip then
    { st with dot := st.dot + 1, performSkip := false }
  else st

/-- The `0..=239 | 261` (visible and pre-render) arm of the scanline
match in `PPU::tick`: status clears, background processing, OAMADDR
zeroing during sprite fetches, and the odd-frame-skip latch. -/
def bgSection (hostRead : Nat → Nat) (st : PPUState) : PPUState :=
  bgSkip (bgOamZero (bgDotDispatch hostRead (bgStatusClears st)))

/-- The dot/scanline advance at the end of `PPU::tick`. -/
def advanceDot (st : PPUState) : PPUState :=
  let dot := st.dot + 1
  if dot > 340 then
    let st := { st with dot := dot % 341 }
    let scanline := st.scanline + 1
    if scanline > 261 then
      { st with scanline := scanline % 262, oddFrame := !st.oddFrame }
    else
      { st with scanline := scanline }
  else
    { st with dot := dot }

/-- The sprite evaluation / sprite loading phase at the top of
`PPU::tick` (the `num_sprites` reset at dot 257 and the
`1..=256` / `257..=320` / `321` dot match on visible scanlines). -/
def tickSpritePhase (hostRead : Nat → Nat) (st : PPUState) : PPUState :=
  let st :=
    if st.isRendering ∧ st.dot = 257 then { st with numSprites := 0 } else st
  if st.isRendering ∧ st.scanline ≤ 239 then
    if 1 ≤ st.dot ∧ st.dot ≤ 256 then performSpriteEvaluation st
    else if 257 ≤ st.dot ∧ st.dot ≤ 320 then spriteLoading hostRead st
    else if st.dot = 321 then
      { st with spriteZeroCurrentScanline := st.spriteZeroNextScanline }
    else st
  else st

/-- The `match self.scanline.get()` of `PPU::tick`: visible/pre-render
scanlines run the background section; scanline 241 sets VBlank at dot 1
(raising NMI towards the host when enabled). -/
def tickRenderPhase (hostRead : Nat → Nat) (st : PPUState) : PPUState :=
  if st.scanline ≤ 239 ∨ st.scanline = 261 then
    bgSection hostRead st
  else if st.scanline = 241 then
    if st.dot = 1 ∧ ¬ st.clearVblank then
      { st with ppustatus := st.ppustatus ||| 0x80 }
    else st
  else st

/-- The `clear_vblank` one-tick latch at the end of `PPU::tick`. -/
def tickVblankClear (st : PPUState) : PPUState :=
  if st.clearVblank then
    { st with ppustatus := st.ppustatus &&& 0x7F, clearVblank := false }
  else st

/-- `PPU::tick`, assembled in source order. -/
def ppuTick (hostRead : Nat → Nat) (st : PPUState) : PPUState :=
  advanceDot (tickVblankClear (tickRenderPhase hostRead (tickSpritePhase hostRead st)))

/-! ### Frame timing (C2)

The dot/scanline/odd-frame/skip evolution of `ppuTick` depends only on
those four fields together with `isRendering` (a function of `ppumask`,
which a tick never changes); everything else in the tick leaves them
alone.  We prove that projection and then count the ticks of a frame on
the projected four-field machine. -/

/-- The five fields that determine (and are the only ones affected by)
the frame-timing behaviour of a tick. -/
def timing5 (st : PPUState) : Nat × Nat × Bool × Bool × Nat :=
  (st.scanline, st.dot, st.oddFrame, st.performSkip, st.ppumask)

theorem evalWriteback_timing5 (st : PPUState) (a : Bool) (b n m : Nat) :
    timing5 (evalWriteback st a b n m) = timing5 st := rfl

theorem evalEven_timing5 (st : PPUState) : timing5 (evalEven st) = timing5 st := by
  simp only [evalEven, evalWriteback]
  repeat' split
  all_goals rfl

theorem performSpriteEvaluation_timing5 (st : PPUState) :
    timing5 (performSpriteEvaluation st) = timing5 st := by
  simp only [performSpriteEvaluation]
  repeat' split
  all_goals first
    | rfl
    | exact evalEven_timing5 st

theorem spriteLoading_timing5 (hostRead : Nat → Nat) (st : PPUState) :
    timing5 (spriteLoading hostRead st) = timing5 st := by
  simp only [spriteLoading]
  repeat' split
  all_goals rfl

theorem pixelApply_timing5 (st : PPUState) :
    timing5 (pixelApply st) = timing5 st := by
  simp only [pixelApply]
  repeat' split
  all_goals rfl

theorem reloadBgShift_timing5 (st : PPUState) :
    timing5 (reloadBgShift st) = timing5 st := rfl

theorem hScroll_timing5 (st : PPUState) : timing5 (hScroll st) = timing5 st := by
  simp only [hScroll]
  repeat' split
  all_goals rfl

theorem vScroll_timing5 (st : PPUState) : timing5 (vScroll st) = timing5 st := by
  simp only [vScroll]
  repeat' split
  all_goals rfl

theorem hUpdate_timing5 (st : PPUState) : timing5 (hUpdate st) = timing5 st := by
  simp only [hUpdate]
  repeat' split
  all_goals rfl

theorem vUpdate_timing5 (st : PPUState) : timing5 (vUpdate st) = timing5 st := by
  simp only [vUpdate]
  repeat' split
  all_goals rfl

theorem bgFetchCycle_timing5 (hostRead : Nat → Nat) (st : PPUState) :
    timing5 (bgFetchCycle hostRead st) = timing5 st := by
  simp only [bgFetchCycle]
  repeat' split
  all_goals first
    | rfl
    | exact hScroll_timing5 _

theorem bgStatusClears_timing5 (st : PPUState) :
    timing5 (bgStatusClears st) = timing5 st := by
  simp only [bgStatusClears]
  repeat' split
  all_goals rfl

theorem bgDotDispatch_timing5 (hostRead : Nat → Nat) (st : PPUState) :
    timing5 (bgDotDispatch hostRead st) = timing5 st := by
  simp only [bgDotDispatch]
  repeat' split
  all_goals first
    | rfl
    | exact (pixelApply_timing5 st).symm ▸ rfl
    | exact (bgFetchCycle_timing5 hostRead (pixelApply st)).trans (pixelApply_timing5 st)
    | exact (vScroll_timing5 _).trans (pixelApply_timing5 st)
    | exact (hUpdate_timing5 _).trans ((reloadBgShift_timing5 _).trans (pixelApply_timing5 st))
    | exact vUpdate_timing5 _

theorem bgOamZero_timing5 (st : PPUState) : timing5 (bgOamZero st) = timing5 st := by
  simp only [bgOamZero]
  repeat' split
  all_goals rfl

theorem tickVblankClear_timing5 (st : PPUState) :
    timing5 (tickVblankClear st) = timing5 st := by
  simp only [tickVblankClear]
  repeat' split
  all_goals rfl

set_option maxRecDepth 2048 in
set_option maxHeartbeats 1000000 in
theorem tickSpritePhase_timing5 (hostRead : Nat → Nat) (st : PPUState) :
    timing5 (tickSpritePhase hostRead st) = timing5 st := by
  have h1 : ∀ s : PPUState, timing5 { s with numSprites := 0 } = timing5 s :=
    fun _ => rfl
  have h2 : ∀ s : PPUState,
      timing5 { s with spriteZeroCurrentScanline := s.spriteZeroNextScanline } =
        timing5 s :=
    fun _ => rfl
  simp only [tickSpritePhase]
  repeat' split
  all_goals
    first
      | simp only [performSpriteEvaluation_timing5, spriteLoading_timing5, h1, h2]
      | rfl
  all_goals rfl

/-- The frame-timing projection of the PPU state: scanline, dot,
odd-frame flag and the skip latch. -/
structure PpuTiming where
  scanline : Nat
  dot : Nat
  oddFrame : Bool
  performSkip : Bool
deriving Repr, DecidableEq

/-- Project a PPU state onto its frame-timing fields. -/
def timingOf (st : PPUState) : PpuTiming :=
  ⟨st.scanline, st.dot, st.oddFrame, st.performSkip⟩

/-- The odd-frame-skip latch (`bgSkip`) on the timing projection;
`rendering` stands for `is_rendering()`. -/
def timingSkip (rendering : Bool) (t : PpuTiming) : PpuTiming :=
  let t :=
    if t.scanline = 261 ∧ t.dot = 338 ∧ rendering = true ∧ t.oddFrame = true then
      { t with performSkip := true }
    else t
  if t.scanline = 261 ∧ t.dot = 339 ∧ t.performSkip = true then
    { t with dot := t.dot + 1, performSkip := false }
  else t

/-- The dot/scanline advance (`advanceDot`) on the timing projection. -/
def timingAdvance (t : PpuTiming) : PpuTiming :=
  let dot := t.dot + 1
  if dot > 340 then
    let t := { t with dot := dot % 341 }
    let scanline := t.scanline + 1
    if scanline > 261 then
      { t with scanline := scanline % 262, oddFrame := !t.oddFrame }
    else
      { t with scanline := scanline }
  else
    { t with dot := dot }

/-- One `PPU::tick` on the timing projection. -/
def timingStep (rendering : Bool) (t : PpuTiming) : PpuTiming :=
  timingAdvance (timingSkip rendering t)

theorem timing5_fields {a b : PPUState} (h : timing5 a = timing5 b) :
    a.scanline = b.scanline ∧ a.dot = b.dot ∧ a.oddFrame = b.oddFrame ∧
    a.performSkip = b.performSkip ∧ a.ppumask = b.ppumask := by
  simp only [timing5, Prod.mk.injEq] at h
  exact ⟨h.1, h.2.1, h.2.2.1, h.2.2.2.1, h.2.2.2.2⟩

theorem timingOf_of_timing5 {a b : PPUState} (h : timing5 a = timing5 b) :
    timingOf a = timingOf b := by
  obtain ⟨h1, h2, h3, h4, _⟩ := timing5_fields h
  simp [timingOf, h1, h2, h3, h4]

theorem isRendering_of_timing5 {a b : PPUState} (h : timing5 a = timing5 b) :
    a.isRendering = b.isRendering := by
  obtain ⟨_, _, _, _, h5⟩ := timing5_fields h
  simp [PPUState.isRendering, h5]

theorem bgSkip_timing (st : PPUState) :
    timingOf (bgSkip st) = timingSkip st.isRendering (timingOf st) ∧
    (bgSkip st).ppumask = st.ppumask := by
  simp only [bgSkip, timingSkip, timingOf]
  repeat' split
  all_goals simp_all

theorem advanceDot_timing (st : PPUState) :
    timingOf (advanceDot st) = timingAdvance (timingOf st) ∧
    (advanceDot st).ppumask = st.ppumask := by
  simp only [advanceDot, timingAdvance, timingOf]
  repeat' split
  all_goals simp_all

theorem timingSkip_of_ne261 (r : Bool) (t : PpuTiming)
    (h : t.scanline ≠ 261) : timingSkip r t = t := by
  simp only [timingSkip]
  have h1 : ¬ (t.scanline = 261 ∧ t.dot = 338 ∧ r = true ∧ t.oddFrame = true) :=
    fun hc => h hc.1
  rw [if_neg h1, if_neg (fun hc => h hc.1)]

theorem bgSection_timing (hostRead : Nat → Nat) (st : PPUState) :
    timingOf (bgSection hostRead st) = timingSkip st.isRendering (timingOf st) ∧
    (bgSection hostRead st).ppumask = st.ppumask := by
  have h5 : timing5 (bgOamZero (bgDotDispatch hostRead (bgStatusClears st)))
      = timing5 st :=
    ((bgOamZero_timing5 _).trans (bgDotDispatch_timing5 _ _)).trans
      (bgStatusClears_timing5 _)
  have hb := bgSkip_timing (bgOamZero (bgDotDispatch hostRead (bgStatusClears st)))
  constructor
  · rw [show bgSection hostRead st =
        bgSkip (bgOamZero (bgDotDispatch hostRead (bgStatusClears st))) from rfl]
    rw [hb.1, timingOf_of_timing5 h5, isRendering_of_timing5 h5]
  · rw [show bgSection hostRead st =
        bgSkip (bgOamZero (bgDotDispatch hostRead (bgStatusClears st))) from rfl]
    rw [hb.2, (timing5_fields h5).2.2.2.2]

theorem tickRenderPhase_timing (hostRead : Nat → Nat) (st : PPUState) :
    timingOf (tickRenderPhase hostRead st) =
      timingSkip st.isRendering (timingOf st) ∧
    (tickRenderPhase hostRead st).ppumask = st.ppumask := by
  unfold tickRenderPhase
  split
  · exact bgSection_timing hostRead st
  · have hne : (timingOf st).scanline ≠ 261 := by
      simp only [timingOf]
      omega
    rw [timingSkip_of_ne261 _ _ hne]
    split
    · split
      · exact ⟨rfl, rfl⟩
      · exact ⟨rfl, rfl⟩
    · exact ⟨rfl, rfl⟩

/-- The frame-timing projection of one full `PPU::tick`: the
scanline/dot/odd-frame/skip fields evolve by `timingStep` applied at the
current rendering-enable state, and `ppumask` is unchanged by a tick. -/
theorem ppuTick_timing (hostRead : Nat → Nat) (st : PPUState) :
    timingOf (ppuTick hostRead st) = timingStep st.isRendering (timingOf st) ∧
    (ppuTick hostRead st).ppumask = st.ppumask := by
  have h1 : timing5 (tickSpritePhase hostRead st) = timing5 st :=
    tickSpritePhase_timing5 hostRead st
  have h2 := tickRenderPhase_timing hostRead (tickSpritePhase hostRead st)
  have h3 : timing5 (tickVblankClear
      (tickRenderPhase hostRead (tickSpritePhase hostRead st))) =
      timing5 (tickRenderPhase hostRead (tickSpritePhase hostRead st)) :=
    tickVblankClear_timing5 _
  have h4 := advanceDot_timing (tickVblankClear
      (tickRenderPhase hostRead (tickSpritePhase hostRead st)))
  constructor
  · rw [show ppuTick hostRead st = advanceDot (tickVblankClear
        (tickRenderPhase hostRead (tickSpritePhase hostRead st))) from rfl]
    rw [h4.1, timingOf_of_timing5 h3, h2.1, timingOf_of_timing5 h1,
      isRendering_of_timing5 h1, timingStep]
  · rw [show ppuTick hostRead st = advanceDot (tickVblankClear
        (tickRenderPhase hostRead (tickSpritePhase hostRead st))) from rfl]
    rw [h4.2, (timing5_fields h3).2.2.2.2, h2.2, (timing5_fields h1).2.2.2.2]

/-- `PPU::is_at_frame_end` on the timing projection. -/
def timingAtFrameEnd (t : PpuTiming) : Bool :=
  t.dot == 1 && t.scanline == 241

/-- `Nes::step_frame` on the timing projection: tick once, then keep
ticking until `is_at_frame_end()`, returning the number of ticks
(`none` when the fuel runs out; each `Nes::tick` runs `ppu.tick` exactly
once, so ticks of the machine equal PPU ticks). -/
def stepFrameTicks (rendering : Bool) : Nat → PpuTiming → Nat → Option Nat
  | 0, _, _ => none
  | fuel + 1, t, acc =>
      let t := timingStep rendering t
      if timingAtFrameEnd t then some (acc + 1)
      else stepFrameTicks rendering fuel t (acc + 1)

theorem timingStep_mid (r : Bool) (o : Bool) (s d : Nat)
    (h338 : ¬ (s = 261 ∧ d = 338)) (hd : d < 340) :
    timingStep r ⟨s, d, o, false⟩ = ⟨s, d + 1, o, false⟩ := by
  have h1 : ¬ (s = 261 ∧ d = 338 ∧ r = true ∧ o = true) :=
    fun hc => h338 ⟨hc.1, hc.2.1⟩
  have h2 : ¬ (s = 261 ∧ d = 339 ∧ false = true) :=
    fun hc => by simpa using hc.2.2
  have h3 : ¬ (340 : Nat) < d + 1 := by omega
  simp only [timingStep, timingSkip, timingAdvance,
    eq_false h1, eq_false h2, eq_false h3, if_false]

theorem timingStep_wrap (r : Bool) (o : Bool) (s : Nat) (h : s < 261) :
    timingStep r ⟨s, 340, o, false⟩ = ⟨s + 1, 0, o, false⟩ := by
  have h1 : ¬ (s = 261 ∧ (340 : Nat) = 338 ∧ r = true ∧ o = true) :=
    fun hc => by omega
  have h2 : ¬ (s = 261 ∧ (340 : Nat) = 339 ∧ false = true) :=
    fun hc => by omega
  have h3 : (340 : Nat) < 340 + 1 := by omega
  have h4 : ¬ (261 : Nat) < s + 1 := by omega
  simp only [timingStep, timingSkip, timingAdvance,
    eq_false h1, eq_false h2, eq_true h3, eq_false h4, if_false, if_true,
    Nat.mod_self]

theorem run_dots (r : Bool) (o : Bool) (s : Nat) (hs : s ≠ 261) :
    ∀ k d, d + k ≤ 340 →
    (timingStep r)^[k] ⟨s, d, o, false⟩ = ⟨s, d + k, o, false⟩ := by
  intro k
  induction k with
  | zero => intro d _; simp
  | succ k ih =>
      intro d hdk
      rw [Function.iterate_succ_apply,
        timingStep_mid r o s d (fun hc => hs hc.1) (by omega),
        ih (d + 1) (by omega)]
      have : d + 1 + k = d + (k + 1) := by omega
      rw [this]

theorem run_dots261 (r : Bool) (o : Bool) :
    ∀ k d, d + k ≤ 338 →
    (timingStep r)^[k] ⟨261, d, o, false⟩ = ⟨261, d + k, o, false⟩ := by
  intro k
  induction k with
  | zero => intro d _; simp
  | succ k ih =>
      intro d hdk
      rw [Function.iterate_succ_apply,
        timingStep_mid r o 261 d (fun hc => by omega) (by omega),
        ih (d + 1) (by omega)]
      have : d + 1 + k = d + (k + 1) := by omega
      rw [this]

theorem full_scanline (r : Bool) (o : Bool) (s : Nat) (h : s < 261) :
    (timingStep r)^[341] ⟨s, 0, o, false⟩ = ⟨s + 1, 0, o, false⟩ := by
  have h341 : (341 : Nat) = 1 + 340 := rfl
  rw [h341, Function.iterate_add_apply,
    run_dots r o s (by omega) 340 0 (by omega)]
  simpa using timingStep_wrap r o s h

theorem state_closed (r : Bool) (o : Bool) :
    ∀ n s j, (∀ i, i < n → s + i < 261) → j ≤ 341 * n →
    (timingStep r)^[j] ⟨s, 0, o, false⟩ = ⟨s + j / 341, j % 341, o, false⟩ := by
  intro n
  induction n with
  | zero =>
      intro s j _ hj
      have hj0 : j = 0 := by omega
      subst hj0
      simp
  | succ n ih =>
      intro s j hlt hj
      rcases Nat.lt_or_ge j 341 with hjlt | hjge
      · rw [run_dots r o s (by have := hlt 0 (by omega); omega) j 0 (by omega)]
        rw [Nat.div_eq_of_lt hjlt, Nat.mod_eq_of_lt hjlt]
        simp
      · obtain ⟨j', rfl⟩ : ∃ j', j = j' + 341 := ⟨j - 341, by omega⟩
        rw [Function.iterate_add_apply,
          full_scanline r o s (hlt 0 (by omega)),
          ih (s + 1) j' (fun i hi => by have := hlt (i + 1) (by omega); omega)
            (by omega)]
        have hd : (j' + 341) / 341 = j' / 341 + 1 := Nat.add_div_right _ (by omega)
        have hm : (j' + 341) % 341 = j' % 341 := Nat.add_mod_right _ _
        rw [hd, hm]
        have : s + 1 + j' / 341 = s + (j' / 341 + 1) := by omega
        rw [this]

theorem step_338_odd :
    timingStep true ⟨261, 338, true, false⟩ = ⟨261, 339, true, true⟩ := by decide

theorem step_339_skip :
    timingStep true ⟨261, 339, true, true⟩ = ⟨0, 0, false, false⟩ := by decide

theorem step_338_even :
    timingStep true ⟨261, 338, false, false⟩ = ⟨261, 339, false, false⟩ := by
  decide

theorem step_339_noskip :
    timingStep true ⟨261, 339, false, false⟩ = ⟨261, 340, false, false⟩ := by
  decide

theorem step_340_261 :
    timingStep true ⟨261, 340, false, false⟩ = ⟨0, 0, true, false⟩ := by decide

theorem segment_A (o : Bool) :
    (timingStep true)^[340] ⟨241, 1, o, false⟩ = ⟨242, 0, o, false⟩ := by
  have h : (340 : Nat) = 1 + 339 := rfl
  rw [h, Function.iterate_add_apply,
    run_dots true o 241 (by omega) 339 1 (by omega)]
  simpa using timingStep_wrap true o 241 (by omega)

theorem segment_B (o : Bool) :
    (timingStep true)^[6479] ⟨242, 0, o, false⟩ = ⟨261, 0, o, false⟩ := by
  have h := state_closed true o 19 242 6479 (fun i hi => by omega) (by norm_num)
  exact h

theorem segment_C_run (o : Bool) :
    (timingStep true)^[338] ⟨261, 0, o, false⟩ = ⟨261, 338, o, false⟩ :=
  run_dots261 true o 338 0 (by omega)

theorem segment_C_odd :
    (timingStep true)^[340] ⟨261, 0, true, false⟩ = ⟨0, 0, false, false⟩ := by
  have h : (340 : Nat) = 1 + (1 + 338) := rfl
  rw [h, Function.iterate_add_apply, Function.iterate_add_apply,
    segment_C_run true, Function.iterate_one, step_338_odd, step_339_skip]

theorem segment_C_even :
    (timingStep true)^[341] ⟨261, 0, false, false⟩ = ⟨0, 0, true, false⟩ := by
  have h : (341 : Nat) = 1 + (1 + (1 + 338)) := rfl
  rw [h, Function.iterate_add_apply, Function.iterate_add_apply,
    Function.iterate_add_apply, segment_C_run false, Function.iterate_one,
    step_338_even, step_339_noskip, step_340_261]

theorem segment_D (o : Bool) :
    (timingStep true)^[82181] ⟨0, 0, o, false⟩ = ⟨241, 0, o, false⟩ := by
  have h := state_closed true o 241 0 82181 (fun i hi => by omega) (by norm_num)
  exact h

theorem step_final (o : Bool) :
    timingStep true ⟨241, 0, o, false⟩ = ⟨241, 1, o, false⟩ :=
  timingStep_mid true o 241 0 (by omega) (by omega)

/-- The full-frame trajectory for an odd frame (`o = true`): 89340 ticks
from the frame-end state reach (241,0) with the skip consumed. -/
theorem trajectory_odd :
    (timingStep true)^[89340] ⟨241, 1, true, false⟩ = ⟨241, 0, false, false⟩ := by
  have h1 : (timingStep true)^[6819] ⟨241, 1, true, false⟩ =
      ⟨261, 0, true, false⟩ := by
    have h : (6819 : Nat) = 6479 + 340 := rfl
    rw [h, Function.iterate_add_apply, segment_A true, segment_B true]
  have h2 : (timingStep true)^[7159] ⟨241, 1, true, false⟩ =
      ⟨0, 0, false, false⟩ := by
    have h : (7159 : Nat) = 340 + 6819 := rfl
    rw [h, Function.iterate_add_apply, h1, segment_C_odd]
  have h : (89340 : Nat) = 82181 + 7159 := rfl
  rw [h, Function.iterate_add_apply, h2, segment_D false]

/-- The full-frame trajectory for an even frame (`o = false`): 89341
ticks from the frame-end state reach (241,0). -/
theorem trajectory_even :
    (timingStep true)^[89341] ⟨241, 1, false, false⟩ = ⟨241, 0, true, false⟩ := by
  have h1 : (timingStep true)^[6819] ⟨241, 1, false, false⟩ =
      ⟨261, 0, false, false⟩ := by
    have h : (6819 : Nat) = 6479 + 340 := rfl
    rw [h, Function.iterate_add_apply, segment_A false, segment_B false]
  have h2 : (timingStep true)^[7160] ⟨241, 1, false, false⟩ =
      ⟨0, 0, true, false⟩ := by
    have h : (7160 : Nat) = 341 + 6819 := rfl
    rw [h, Function.iterate_add_apply, h1, segment_C_even]
  have h : (89341 : Nat) = 82181 + 7160 := rfl
  rw [h, Function.iterate_add_apply, h2, segment_D true]

/-- During the 89,340 intermediate ticks of an odd frame the PPU never
sits at the frame-end state. -/
theorem nohit_odd : ∀ j, 1 ≤ j → j ≤ 89340 →
    timingAtFrameEnd ((timingStep true)^[j] ⟨241, 1, true, false⟩) = false := by
  have hA : ∀ j2, j2 ≤ 6479 →
      (timingStep true)^[j2 + 340] ⟨241, 1, true, false⟩ =
        ⟨242 + j2 / 341, j2 % 341, true, false⟩ := by
    intro j2 hj2
    rw [Function.iterate_add_apply, segment_A true]
    exact state_closed true true 19 242 j2 (fun i hi => by omega) (by omega)
  have hC : (timingStep true)^[6819] ⟨241, 1, true, false⟩ =
      ⟨261, 0, true, false⟩ := by
    have h : (6819 : Nat) = 6479 + 340 := rfl
    rw [h, Function.iterate_add_apply, segment_A true, segment_B true]
  have hCrun : ∀ j3, j3 ≤ 338 →
      (timingStep true)^[j3 + 6819] ⟨241, 1, true, false⟩ =
        ⟨261, j3, true, false⟩ := by
    intro j3 hj3
    rw [Function.iterate_add_apply, hC]
    have h := run_dots261 true true j3 0 (by omega)
    rwa [Nat.zero_add] at h
  have h7158 : (timingStep true)^[7158] ⟨241, 1, true, false⟩ =
      ⟨261, 339, true, true⟩ := by
    have h : (7158 : Nat) = 1 + (338 + 6819) := rfl
    rw [h, Function.iterate_add_apply, hCrun 338 (by omega),
      Function.iterate_one, step_338_odd]
  have h7159 : (timingStep true)^[7159] ⟨241, 1, true, false⟩ =
      ⟨0, 0, false, false⟩ := by
    have h : (7159 : Nat) = 1 + 7158 := rfl
    rw [h, Function.iterate_add_apply, h7158, Function.iterate_one,
      step_339_skip]
  have hD : ∀ j4, j4 ≤ 82181 →
      (timingStep true)^[j4 + 7159] ⟨241, 1, true, false⟩ =
        ⟨j4 / 341, j4 % 341, false, false⟩ := by
    intro j4 hj4
    rw [Function.iterate_add_apply, h7159]
    have h := state_closed true false 241 0 j4 (fun i hi => by omega) (by omega)
    rwa [Nat.zero_add] at h
  intro j h1 h2
  rcases Nat.lt_or_ge j 340 with hj | hj
  · rw [run_dots true true 241 (by omega) j 1 (by omega)]
    simp [timingAtFrameEnd]
    omega
  · rcases Nat.lt_or_ge j 6820 with hj2 | hj2
    · obtain ⟨j2, rfl⟩ : ∃ j2, j = j2 + 340 := ⟨j - 340, by omega⟩
      rw [hA j2 (by omega)]
      simp [timingAtFrameEnd]
      omega
    · rcases Nat.lt_or_ge j 7158 with hj3 | hj3
      · obtain ⟨j3, rfl⟩ : ∃ j3, j = j3 + 6819 := ⟨j - 6819, by omega⟩
        rw [hCrun j3 (by omega)]
        simp [timingAtFrameEnd]
      · rcases Nat.lt_or_ge j 7159 with hj4 | hj4
        · have : j = 7158 := by omega
          subst this
          rw [h7158]
          simp [timingAtFrameEnd]
        · rcases Nat.lt_or_ge j 7160 with hj5 | hj5
          · have : j = 7159 := by omega
            subst this
            rw [h7159]
            simp [timingAtFrameEnd]
          · obtain ⟨j4, rfl⟩ : ∃ j4, j = j4 + 7159 := ⟨j - 7159, by omega⟩
            rw [hD j4 (by omega)]
            simp [timingAtFrameEnd]
            omega

/-- During the 89,341 intermediate ticks of an even frame the PPU never
sits at the frame-end state. -/
theorem nohit_even : ∀ j, 1 ≤ j → j ≤ 89341 →
    timingAtFrameEnd ((timingStep true)^[j] ⟨241, 1, false, false⟩) = false := by
  have hA : ∀ j2, j2 ≤ 6479 →
      (timingStep true)^[j2 + 340] ⟨241, 1, false, false⟩ =
        ⟨242 + j2 / 341, j2 % 341, false, false⟩ := by
    intro j2 hj2
    rw [Function.iterate_add_apply, segment_A false]
    exact state_closed true false 19 242 j2 (fun i hi => by omega) (by omega)
  have hC : (timingStep true)^[6819] ⟨241, 1, false, false⟩ =
      ⟨261, 0, false, false⟩ := by
    have h : (6819 : Nat) = 6479 + 340 := rfl
    rw [h, Function.iterate_add_apply, segment_A false, segment_B false]
  have hCrun : ∀ j3, j3 ≤ 338 →
      (timingStep true)^[j3 + 6819] ⟨241, 1, false, false⟩ =
        ⟨261, j3, false, false⟩ := by
    intro j3 hj3
    rw [Function.iterate_add_apply, hC]
    have h := run_dots261 true false j3 0 (by omega)
    rwa [Nat.zero_add] at h
  have h7158 : (timingStep true)^[7158] ⟨241, 1, false, false⟩ =
      ⟨261, 339, false, false⟩ := by
    have h : (7158 : Nat) = 1 + (338 + 6819) := rfl
    rw [h, Function.iterate_add_apply, hCrun 338 (by omega),
      Function.iterate_one, step_338_even]
  have h7159 : (timingStep true)^[7159] ⟨241, 1, false, false⟩ =
      ⟨261, 340, false, false⟩ := by
    have h : (7159 : Nat) = 1 + 7158 := rfl
    rw [h, Function.iterate_add_apply, h7158, Function.iterate_one,
      step_339_noskip]
  have h7160 : (timingStep true)^[7160] ⟨241, 1, false, false⟩ =
      ⟨0, 0, true, false⟩ := by
    have h : (7160 : Nat) = 1 + 7159 := rfl
    rw [h, Function.iterate_add_apply, h7159, Function.iterate_one,
      step_340_261]
  have hD : ∀ j5, j5 ≤ 82181 →
      (timingStep true)^[j5 + 7160] ⟨241, 1, false, false⟩ =
        ⟨j5 / 341, j5 % 341, true, false⟩ := by
    intro j5 hj5
    rw [Function.iterate_add_apply, h7160]
    have h := state_closed true true 241 0 j5 (fun i hi => by omega) (by omega)
    rwa [Nat.zero_add] at h
  intro j h1 h2
  rcases Nat.lt_or_ge j 340 with hj | hj
  · rw [run_dots true false 241 (by omega) j 1 (by omega)]
    simp [timingAtFrameEnd]
    omega
  · rcases Nat.lt_or_ge j 6820 with hj2 | hj2
    · obtain ⟨j2, rfl⟩ : ∃ j2, j = j2 + 340 := ⟨j - 340, by omega⟩
      rw [hA j2 (by omega)]
      simp [timingAtFrameEnd]
      omega
    · rcases Nat.lt_or_ge j 7158 with hj3 | hj3
      · obtain ⟨j3, rfl⟩ : ∃ j3, j = j3 + 6819 := ⟨j - 6819, by omega⟩
        rw [hCrun j3 (by omega)]
        simp [timingAtFrameEnd]
      · rcases Nat.lt_or_ge j 7159 with hj4 | hj4
        · have : j = 7158 := by omega
          subst this
          rw [h7158]
          simp [timingAtFrameEnd]
        · rcases Nat.lt_or_ge j 7160 with hj5 | hj5
          · have : j = 7159 := by omega
            subst this
            rw [h7159]
            simp [timingAtFrameEnd]
          · rcases Nat.lt_or_ge j 7161 with hj6 | hj6
            · have : j = 7160 := by omega
              subst this
              rw [h7160]
              simp [timingAtFrameEnd]
            · obtain ⟨j5, rfl⟩ : ∃ j5, j = j5 + 7160 := ⟨j - 7160, by omega⟩
              rw [hD j5 (by omega)]
              simp [timingAtFrameEnd]
              omega

/-- While no tick lands on the frame-end state, the step-frame loop just
advances through the trajectory, counting ticks. -/
theorem stepFrameTicks_shift (r : Bool) :
    ∀ k fuel acc (t : PpuTiming),
    (∀ j, 1 ≤ j → j ≤ k → timingAtFrameEnd ((timingStep r)^[j] t) = false) →
    stepFrameTicks r (fuel + k) t acc =
      stepFrameTicks r fuel ((timingStep r)^[k] t) (acc + k) := by
  intro k
  induction k with
  | zero => intro fuel acc t _; simp
  | succ k ih =>
      intro fuel acc t hno
      have hstep : fuel + (k + 1) = (fuel + k) + 1 := by omega
      rw [hstep]
      have h1 : timingAtFrameEnd (timingStep r t) = false := by
        have h := hno 1 (by omega) (by omega)
        rwa [Function.iterate_one] at h
      have hno' : ∀ j, 1 ≤ j → j ≤ k →
          timingAtFrameEnd ((timingStep r)^[j] (timingStep r t)) = false := by
        intro j hl hu
        have h := hno (j + 1) (by omega) (by omega)
        rwa [Function.iterate_succ_apply] at h
      rw [stepFrameTicks]
      simp only [h1, Bool.false_eq_true, if_false]
      rw [ih fuel (acc + 1) (timingStep r t) hno',
        ← Function.iterate_succ_apply]
      have : acc + 1 + k = acc + (k + 1) := by omega
      rw [this]

/-- When the next tick reaches the frame-end state the loop stops,
returning the tick count. -/
theorem stepFrameTicks_hit (r : Bool) (fuel acc : Nat) (t : PpuTiming)
    (h : timingAtFrameEnd (timingStep r t) = true) :
    stepFrameTicks r (fuel + 1) t acc = some (acc + 1) := by
  rw [stepFrameTicks]
  simp only [h, if_true]

/-- C2: `step_frame()` started at the frame-end state (scanline 241,
dot 1) with rendering enabled advances the machine by — and returns —
exactly 89,341 ticks when the odd-frame flag is set (the odd-frame skip
fires at dot 338 of the pre-render scanline) and exactly 89,342 ticks
when it is clear (no skip).  The first conjunct ties the timing machine
to the full PPU: every `PPU::tick` evolves the
scanline/dot/odd-frame/skip fields by `timingStep` (and preserves
PPUMASK, hence the rendering-enable state); the last conjunct shows the
skip latch fires at (261,338) exactly when the odd-frame flag is set. -/
theorem step_frame_tick_count (hostRead : Nat → Nat) (o : Bool) :
    (∀ st : PPUState,
      timingOf (ppuTick hostRead st) = timingStep st.isRendering (timingOf st) ∧
      (ppuTick hostRead st).ppumask = st.ppumask) ∧
    stepFrameTicks true 90000 ⟨241, 1, o, false⟩ 0 =
      some (if o then 89341 else 89342) ∧
    (timingSkip true ⟨261, 338, o, false⟩).performSkip = o := by
  refine ⟨fun st => ppuTick_timing hostRead st, ?_, ?_⟩
  · cases o
    · have h90000 : (90000 : Nat) = 659 + 89341 := rfl
      rw [h90000, stepFrameTicks_shift true 89341 659 0 _ nohit_even,
        trajectory_even]
      have hhit : timingAtFrameEnd (timingStep true ⟨241, 0, true, false⟩)
          = true := by decide
      have h659 : (659 : Nat) = 658 + 1 := rfl
      rw [h659, stepFrameTicks_hit true 658 _ _ hhit]
      norm_num
    · have h90000 : (90000 : Nat) = 660 + 89340 := rfl
      rw [h90000, stepFrameTicks_shift true 89340 660 0 _ nohit_odd,
        trajectory_odd]
      have hhit : timingAtFrameEnd (timingStep true ⟨241, 0, false, false⟩)
          = true := by decide
      have h660 : (660 : Nat) = 659 + 1 := rfl
      rw [h660, stepFrameTicks_hit true 659 _ _ hhit]
      norm_num
  · cases o <;> decide

/-! ### Sprite-0 hit (C7)

The only place the whole of `PPU::tick` inserts `PPUSTATUS::SPRITE_0_HIT`
(bit 0x40) is the sprite mux inside `PPU::pixel`; every other status
update either inserts a different bit or removes bits.  We track bit 6
of the status byte through each phase. -/

theorem hasBits64 (x : Nat) : hasBits x 0x40 = x.testBit 6 := by
  unfold hasBits
  rw [show (0x40 : Nat) = 2 ^ 6 from rfl, Nat.and_two_pow]
  cases h : x.testBit 6 <;> simp

theorem hasBits64_or20 (x : Nat) : hasBits (x ||| 0x20) 0x40 = hasBits x 0x40 := by
  rw [hasBits64, hasBits64, Nat.testBit_or,
    show Nat.testBit 0x20 6 = false from by decide]
  simp

theorem hasBits64_or80 (x : Nat) : hasBits (x ||| 0x80) 0x40 = hasBits x 0x40 := by
  rw [hasBits64, hasBits64, Nat.testBit_or,
    show Nat.testBit 0x80 6 = false from by decide]
  simp

theorem hasBits64_or40 (x : Nat) : hasBits (x ||| 0x40) 0x40 = true := by
  rw [hasBits64, Nat.testBit_or,
    show Nat.testBit 0x40 6 = true from by decide]
  simp

theorem hasBits64_andDF (x : Nat) : hasBits (x &&& 0xDF) 0x40 = hasBits x 0x40 := by
  rw [hasBits64, hasBits64, Nat.testBit_and,
    show Nat.testBit 0xDF 6 = true from by decide]
  simp

theorem hasBits64_and7F (x : Nat) : hasBits (x &&& 0x7F) 0x40 = hasBits x 0x40 := by
  rw [hasBits64, hasBits64, Nat.testBit_and,
    show Nat.testBit 0x7F 6 = true from by decide]
  simp

theorem hasBits64_and3F (x : Nat) : hasBits (x &&& 0x3F) 0x40 = false := by
  rw [hasBits64, Nat.testBit_and,
    show Nat.testBit 0x3F 6 = false from by decide]
  simp

/-- The properties of the input state that the sprite mux demands before
it will set the sprite-0-hit bit: sprite 0 recorded as present on this
scanline, a visible pixel with x ≠ 255, a nonzero background palette
(hence nonzero background pattern bits), and slot 0 covering the pixel
with nonzero sprite pattern bits. -/
def pixelHitConds (st : PPUState) : Prop :=
  st.spriteZeroCurrentScanline = true ∧
  st.scanline < 240 ∧ 2 ≤ st.dot ∧ st.dot - 2 < 256 ∧
  st.dot - 2 ≠ 255 ∧
  bgPaletteAt st (st.dot - 2) ≠ 0 ∧
  (st.sprites 0).x ≤ st.dot - 2 ∧ st.dot - 2 < (st.sprites 0).x + 8 ∧
  spritePatternAt st 0 (st.dot - 2) ≠ 0

theorem spriteLoopStep_status (st : PPUState) (x bg : Nat) (acc : SpriteMuxAcc)
    (i : Nat)
    (h : hasBits (spriteLoopStep st x bg acc i).ppustatus 0x40 = true) :
    hasBits acc.ppustatus 0x40 = true ∨
      (i = 0 ∧ st.spriteZeroCurrentScanline = true ∧ x ≠ 255 ∧ bg ≠ 0 ∧
        (st.sprites i).x ≤ x ∧ x < (st.sprites i).x + 8 ∧
        spritePatternAt st i x ≠ 0) := by
  by_cases hcov : (st.sprites i).x ≤ x ∧ x < (st.sprites i).x + 8
  · by_cases hpal : spritePatternAt st i x ≠ 0
    · by_cases hguard : st.spriteZeroCurrentScanline = true ∧ x ≠ 255 ∧
          bg ≠ 0 ∧ i = 0
      · exact Or.inr ⟨hguard.2.2.2, hguard.1, hguard.2.1, hguard.2.2.1,
          hcov.1, hcov.2, hpal⟩
      · left
        simp only [spriteLoopStep] at h
        rw [if_pos hcov, if_pos hpal, if_neg hguard] at h
        exact h
    · left
      simp only [spriteLoopStep] at h
      rw [if_pos hcov, if_neg hpal] at h
      exact h
  · left
    simp only [spriteLoopStep] at h
    rw [if_neg hcov] at h
    exact h

theorem spriteLoop_foldl_status (st : PPUState) (x bg : Nat) :
    ∀ (l : List Nat) (acc : SpriteMuxAcc),
    hasBits ((l.foldl (spriteLoopStep st x bg) acc).ppustatus) 0x40 = true →
    hasBits acc.ppustatus 0x40 = true ∨
      (st.spriteZeroCurrentScanline = true ∧ x ≠ 255 ∧ bg ≠ 0 ∧
        (st.sprites 0).x ≤ x ∧ x < (st.sprites 0).x + 8 ∧
        spritePatternAt st 0 x ≠ 0) := by
  intro l
  induction l with
  | nil => intro acc h; exact Or.inl h
  | cons a l ih =>
      intro acc h
      rw [List.foldl_cons] at h
      rcases ih _ h with h1 | h1
      · rcases spriteLoopStep_status st x bg acc a h1 with h2 | h2
        · exact Or.inl h2
        · obtain ⟨rfl, hszc, hx, hbg, hc1, hc2, hp⟩ := h2
          exact Or.inr ⟨hszc, hx, hbg, hc1, hc2, hp⟩
      · exact Or.inr h1

theorem spriteLoop_status (st : PPUState) (x bg : Nat)
    (h : hasBits (spriteLoop st x bg).ppustatus 0x40 = true) :
    hasBits st.ppustatus 0x40 = true ∨
      (st.spriteZeroCurrentScanline = true ∧ x ≠ 255 ∧ bg ≠ 0 ∧
        (st.sprites 0).x ≤ x ∧ x < (st.sprites 0).x + 8 ∧
        spritePatternAt st 0 x ≠ 0) :=
  spriteLoop_foldl_status st x bg _ _ h

/-- `PPU::pixel` sets the sprite-0-hit bit only when the input state
satisfies `pixelHitConds`. -/
theorem pixelApply_status (st : PPUState)
    (h : hasBits (pixelApply st).ppustatus 0x40 = true) :
    hasBits st.ppustatus 0x40 = true ∨ pixelHitConds st := by
  unfold pixelApply at h
  simp only at h
  split at h
  · split at h
    · rename_i hvis hguard
      rcases spriteLoop_status st (st.dot - 2) (bgPaletteAt st (st.dot - 2)) h
        with h1 | h1
      · exact Or.inl h1
      · obtain ⟨hszc, hx, hbg, hc1, hc2, hp⟩ := h1
        exact Or.inr ⟨hszc, hvis.1, hvis.2.1, hvis.2.2, hx, hbg, hc1, hc2, hp⟩
    · exact Or.inl h
  · exact Or.inl h

theorem reloadBgShift_ppustatus (st : PPUState) :
    (reloadBgShift st).ppustatus = st.ppustatus := rfl

theorem hScroll_ppustatus (st : PPUState) :
    (hScroll st).ppustatus = st.ppustatus := by
  simp only [hScroll]
  repeat' split
  all_goals rfl

theorem vScroll_ppustatus (st : PPUState) :
    (vScroll st).ppustatus = st.ppustatus := by
  simp only [vScroll]
  repeat' split
  all_goals rfl

theorem hUpdate_ppustatus (st : PPUState) :
    (hUpdate st).ppustatus = st.ppustatus := by
  simp only [hUpdate]
  repeat' split
  all_goals rfl

theorem vUpdate_ppustatus (st : PPUState) :
    (vUpdate st).ppustatus = st.ppustatus := by
  simp only [vUpdate]
  repeat' split
  all_goals rfl

theorem bgFetchCycle_ppustatus (hostRead : Nat → Nat) (st : PPUState) :
    (bgFetchCycle hostRead st).ppustatus = st.ppustatus := by
  simp only [bgFetchCycle]
  repeat' split
  all_goals first
    | rfl
    | exact hScroll_ppustatus _

theorem bgOamZero_ppustatus (st : PPUState) :
    (bgOamZero st).ppustatus = st.ppustatus := by
  simp only [bgOamZero]
  split
  all_goals rfl

theorem bgSkip_ppustatus (st : PPUState) :
    (bgSkip st).ppustatus = st.ppustatus := by
  simp only [bgSkip]
  repeat' split
  all_goals rfl

theorem advanceDot_ppustatus (st : PPUState) :
    (advanceDot st).ppustatus = st.ppustatus := by
  simp only [advanceDot]
  repeat' split
  all_goals rfl

theorem spriteLoading_ppustatus (hostRead : Nat → Nat) (st : PPUState) :
    (spriteLoading hostRead st).ppustatus = st.ppustatus := by
  simp only [spriteLoading]
  repeat' split
  all_goals rfl

theorem evalEven_status6 (st : PPUState) :
    hasBits (evalEven st).ppustatus 0x40 = hasBits st.ppustatus 0x40 := by
  simp only [evalEven, evalWriteback]
  repeat' split
  all_goals first
    | rfl
    | exact hasBits64_or20 st.ppustatus

theorem performSpriteEvaluation_status6 (st : PPUState) :
    hasBits (performSpriteEvaluation st).ppustatus 0x40 =
      hasBits st.ppustatus 0x40 := by
  simp only [performSpriteEvaluation]
  repeat' split
  all_goals first
    | rfl
    | exact evalEven_status6 st

set_option maxRecDepth 4096 in
set_option maxHeartbeats 2000000 in
theorem tickSpritePhase_status6 (hostRead : Nat → Nat) (st : PPUState) :
    hasBits (tickSpritePhase hostRead st).ppustatus 0x40 =
      hasBits st.ppustatus 0x40 := by
  simp only [tickSpritePhase]
  repeat' split
  all_goals first
    | exact performSpriteEvaluation_status6 _
    | (rw [spriteLoading_ppustatus])
    | rfl

theorem bgStatusClears_status6 (st : PPUState)
    (h : hasBits (bgStatusClears st).ppustatus 0x40 = true) :
    hasBits st.ppustatus 0x40 = true := by
  simp only [bgStatusClears] at h
  split at h
  · split at h
    · rw [hasBits64_and3F] at h
      exact absurd h (by simp)
    · rw [hasBits64_andDF] at h
      exact h
  · split at h
    · rw [hasBits64_and3F] at h
      exact absurd h (by simp)
    · exact h

theorem bgDotDispatch_status6 (hostRead : Nat → Nat) (st : PPUState)
    (h : hasBits (bgDotDispatch hostRead st).ppustatus 0x40 = true) :
    hasBits st.ppustatus 0x40 = true ∨ pixelHitConds st := by
  simp only [bgDotDispatch] at h
  repeat' split at h
  all_goals first
    | exact Or.inl h
    | (rw [bgFetchCycle_ppustatus] at h; exact pixelApply_status st h)
    | (rw [vScroll_ppustatus] at h; exact pixelApply_status st h)
    | (rw [hUpdate_ppustatus, reloadBgShift_ppustatus] at h
       exact pixelApply_status st h)
    | (rw [vUpdate_ppustatus] at h; exact Or.inl h)

/-- The fields of the PPU state that `pixelHitConds` reads. -/
def pixelFields (st : PPUState) :=
  (st.spriteZeroCurrentScanline, st.dot, st.scanline, st.ppumask, st.fineX,
   st.bgHighShift, st.bgLowShift, st.atShiftH, st.atShiftL, st.sprites 0)

theorem evalEven_pixelFields (st : PPUState) :
    pixelFields (evalEven st) = pixelFields st := by
  simp only [evalEven, evalWriteback]
  repeat' split
  all_goals rfl

theorem performSpriteEvaluation_pixelFields (st : PPUState) :
    pixelFields (performSpriteEvaluation st) = pixelFields st := by
  simp only [performSpriteEvaluation]
  repeat' split
  all_goals first
    | rfl
    | exact evalEven_pixelFields st

theorem bgStatusClears_pixelFields (st : PPUState) :
    pixelFields (bgStatusClears st) = pixelFields st := by
  simp only [bgStatusClears]
  repeat' split
  all_goals rfl

theorem spriteLoading_at257 (hostRead : Nat → Nat) (st : PPUState)
    (h : st.dot = 257) : spriteLoading hostRead st = st := by
  simp [spriteLoading, h]

set_option maxRecDepth 4096 in
set_option maxHeartbeats 2000000 in
theorem tickSpritePhase_pixelFields (hostRead : Nat → Nat) (st : PPUState)
    (hdot : st.dot ≤ 257 ∨ 322 ≤ st.dot) :
    pixelFields (tickSpritePhase hostRead st) = pixelFields st := by
  simp only [tickSpritePhase]
  repeat' split
  all_goals first
    | exact performSpriteEvaluation_pixelFields _
    | rfl
    | (rw [spriteLoading_at257 hostRead _ (by
        first
          | omega
          | (dsimp only; omega))] <;> rfl)
    | (exfalso
       first
         | omega
         | (dsimp only at *; omega))

theorem pixelHitConds_congr (a b : PPUState) (h : pixelFields a = pixelFields b) :
    pixelHitConds a = pixelHitConds b := by
  simp only [pixelFields, Prod.mk.injEq] at h
  obtain ⟨h1, h2, h3, h4, h5, h6, h7, h8, h9, h10⟩ := h
  unfold pixelHitConds bgPaletteAt bgPatternAt spritePatternAt
  rw [h1, h2, h3, h4, h5, h6, h7, h8, h9, h10]

theorem bgPalette_pattern (st : PPUState) (x : Nat)
    (h : bgPaletteAt st x ≠ 0) : bgPatternAt st ≠ 0 := by
  simp only [bgPaletteAt] at h
  split at h
  · split at h
    · exact absurd rfl h
    · assumption
  · exact absurd rfl h

theorem tickRenderPhase_status6 (hostRead : Nat → Nat) (st : PPUState)
    (hh : hasBits (tickRenderPhase hostRead st).ppustatus 0x40 = true) :
    hasBits st.ppustatus 0x40 = true ∨ pixelHitConds st := by
  simp only [tickRenderPhase] at hh
  split at hh
  · simp only [bgSection] at hh
    rw [bgSkip_ppustatus, bgOamZero_ppustatus] at hh
    rcases bgDotDispatch_status6 hostRead (bgStatusClears st) hh with h1 | h1
    · exact Or.inl (bgStatusClears_status6 st h1)
    · right
      rw [← pixelHitConds_congr _ _ (bgStatusClears_pixelFields st)]
      exact h1
  · split at hh
    · split at hh
      · rw [hasBits64_or80] at hh
        exact Or.inl hh
      · exact Or.inl hh
    · exact Or.inl hh

/-- C7: in any PPU state (in particular any reachable one), a `PPU::tick`
that sets the sprite-0-hit bit of PPUSTATUS (bit 0x40) while it was
previously clear can only do so when, at the pixel being produced
(x = dot − 2), sprite 0 is recorded as present on the current scanline,
x ≠ 255, the background pattern bits are nonzero (the background palette
index is nonzero), and sprite slot 0 covers the pixel with nonzero
sprite pattern bits. -/
theorem sprite_zero_hit_only_if (hostRead : Nat → Nat) (st : PPUState)
    (hset : hasBits (ppuTick hostRead st).ppustatus 0x40 = true)
    (hclear : hasBits st.ppustatus 0x40 = false) :
    st.spriteZeroCurrentScanline = true ∧
    st.dot - 2 ≠ 255 ∧
    bgPatternAt st ≠ 0 ∧
    bgPaletteAt st (st.dot - 2) ≠ 0 ∧
    (st.sprites 0).x ≤ st.dot - 2 ∧ st.dot - 2 < (st.sprites 0).x + 8 ∧
    spritePatternAt st 0 (st.dot - 2) ≠ 0 := by
  rw [show ppuTick hostRead st = advanceDot (tickVblankClear
      (tickRenderPhase hostRead (tickSpritePhase hostRead st))) from rfl,
    advanceDot_ppustatus] at hset
  have h2 : hasBits (tickRenderPhase hostRead
      (tickSpritePhase hostRead st)).ppustatus 0x40 = true := by
    revert hset
    generalize tickRenderPhase hostRead (tickSpritePhase hostRead st) = s2
    intro hset
    simp only [tickVblankClear] at hset
    split at hset
    · rwa [hasBits64_and7F] at hset
    · exact hset
  rcases tickRenderPhase_status6 hostRead (tickSpritePhase hostRead st) h2
    with h3 | h3
  · rw [tickSpritePhase_status6] at h3
    rw [h3] at hclear
    exact absurd hclear (by simp)
  · have hdoteq : (tickSpritePhase hostRead st).dot = st.dot :=
      (timing5_fields (tickSpritePhase_timing5 hostRead st)).2.1
    have hdot : st.dot ≤ 257 ∨ 322 ≤ st.dot := by
      left
      have c3 := h3.2.2.1
      have c4 := h3.2.2.2.1
      rw [hdoteq] at c3 c4
      omega
    rw [pixelHitConds_congr _ _ (tickSpritePhase_pixelFields hostRead st hdot)]
      at h3
    obtain ⟨c1, c2, c3, c4, c5, c6, c7, c8, c9⟩ := h3
    exact ⟨c1, c5, bgPalette_pattern st _ c6, c6, c7, c8, c9⟩

/-- Witness for `sprite_zero_hit_only_if`: a state at scanline 1, dot 3,
with background and sprites enabled, sprite 0 present with opaque
pattern at x = 1 and an opaque background pixel; the tick sets the hit
bit and all the conditions hold. -/
theorem sprite_zero_hit_only_if_witness :
    let st := { initPPU with
      scanline := 1, dot := 3, ppumask := 0x1E,
      spriteZeroCurrentScanline := true, numSprites := 1,
      bgHighShift := 0xFFFF, bgLowShift := 0xFFFF,
      sprites := fun _ => ⟨0, 0xFF, 0xFF, 0⟩ }
    (hasBits (ppuTick (fun _ => 0) st).ppustatus 0x40 = true) ∧
    (hasBits st.ppustatus 0x40 = false) ∧
    st.spriteZeroCurrentScanline = true ∧ bgPatternAt st ≠ 0 := by
  intro st
  have hset : hasBits (ppuTick (fun _ => 0) st).ppustatus 0x40 = true := by
    decide
  have hclear : hasBits st.ppustatus 0x40 = false := by decide
  have h := sprite_zero_hit_only_if (fun _ => 0) st hset hclear
  exact ⟨hset, hclear, h.1, h.2.2.1⟩

end Covnes
